import Mathlib

/-!
# Verification of the Arke attestation worker

Shallow embedding of the attestation worker's write path:

* the queue table (`attestation_queue`), chain head (`chain_state`) and
  lookup index (KV) as a `WorkerState`;
* sequential signing (`signDataItemBatch`, `signItemsSequentially`);
* the three finalization paths: legacy direct (`finalizeBatch`), bundle
  (`finalizeBundleSuccess` / `finalizeBundleFailure`) and Turbo direct
  (`finalizeTurboSuccess` / `finalizeTurboFailure`);
* bundle-mode gating (`processWithBundlingStep`);
* seeding verification (`verifyBundleStep`, `requeueEntities`).

Network and crypto effects (upload outcomes, SHA-256, RSA signatures, the
gateway status query) are parameters of the definitions; the definitions
themselves mirror the control flow of the TypeScript source.
-/

namespace Arke

/-- Queue row status; mirrors the SQL CHECK
`status IN ('pending','signing','uploading','failed')`. -/
inductive Status where
  | pending
  | signing
  | uploading
  | failed
deriving DecidableEq, Repr, Inhabited

/-- A row of `attestation_queue`.  Timestamps are milliseconds since epoch
(the source stores ISO strings; only their ordering and equality matter
here). -/
structure QueueItem where
  id : Nat
  entity_id : String
  cid : String
  op : String
  vis : String
  ts : Nat
  status : Status
  retry_count : Nat
  error_message : Option String
  created_at : Nat
  updated_at : Nat
deriving DecidableEq, Repr, Inhabited

/-- The chain head row (`chain_state`): `{tx_id, cid, seq}`, genesis being
`{null, null, 0}`. -/
structure ChainHead where
  tx_id : Option String
  cid : Option String
  seq : Nat
deriving DecidableEq, Repr, Inhabited

/-- A manifest fetched from R2; the worker only reads its `ver`. -/
structure Manifest where
  ver : Nat
deriving DecidableEq, Repr, Inhabited

/-- The `attestation` object of an uploaded payload. -/
structure Attestation where
  pi : String
  ver : Nat
  cid : String
  op : String
  vis : String
  ts : Nat
  prev_tx : Option String
  prev_cid : Option String
  seq : Nat
deriving DecidableEq, Repr, Inhabited

/-- The full uploaded JSON payload: attestation plus embedded manifest. -/
structure AttestationPayload where
  attestation : Attestation
  manifest : Manifest
deriving DecidableEq, Repr, Inhabited

/-- An Arweave tag attached to the transport envelope. -/
structure Tag where
  name : String
  value : String
deriving DecidableEq, Repr, Inhabited

/-- A signed record awaiting upload.  Models `PendingTransaction`
(legacy), `PendingDataItem` (bundle) and `TurboUploadItem` (turbo): all
three carry the queue row, manifest, payload, the record id known after
signing (`txId`) and the sequence number; the bundle/turbo variants also
carry the envelope tags, kept here. -/
structure PendingDataItem where
  queueItem : QueueItem
  manifest : Manifest
  payload : AttestationPayload
  tags : List Tag
  txId : String
  seq : Nat
deriving DecidableEq, Repr, Inhabited

/-- The value written under `attest:{entity}:{ver}` / `attest:{entity}:latest`. -/
structure AttestationRecord where
  cid : String
  tx : String
  seq : Nat
  ts : Nat
  bundled : Bool
deriving DecidableEq, Repr, Inhabited

/-- Persistent state touched by finalization: the queue table, the chain
head for the production key, and the KV lookup index (a log of puts, in
write order). -/
structure WorkerState where
  queue : List QueueItem
  chain : ChainHead
  index : List (String × AttestationRecord)
deriving DecidableEq, Repr, Inhabited

/-- JS string truthiness on a nullable string: `if (s)` is taken exactly
when `s` is non-null and non-empty. -/
def truthy : Option String → Bool
  | none => false
  | some s => !s.isEmpty

/-- `updateChainHead` (chain/state.ts): upsert `{tx_id, cid, seq}` under the
chain key. -/
def updateChainHead (st : WorkerState) (txId cid : String) (seq : Nat) : WorkerState :=
  { st with chain := { tx_id := some txId, cid := some cid, seq := seq } }

/-- KV key `attest:{entity_id}:{ver}`. -/
def verKey (entityId : String) (ver : Nat) : String :=
  "attest:" ++ entityId ++ ":" ++ toString ver

/-- KV key `attest:{entity_id}:latest`. -/
def latestKey (entityId : String) : String :=
  "attest:" ++ entityId ++ ":latest"

namespace SignDataItems

/-- `buildTags` of chain/signDataItems.ts (bundle path): the nine fixed
tags, plus `Prev-TX` when `prevTx` is truthy.  No `Prev-CID` tag is built
on this path. -/
def buildTags (item : QueueItem) (ver seq : Nat) (prevTx : Option String) : List Tag :=
  let tags : List Tag :=
    [ ⟨"Content-Type", "application/json"⟩,
      ⟨"App-Name", "Arke"⟩,
      ⟨"Type", "attestation"⟩,
      ⟨"PI", item.entity_id⟩,
      ⟨"Ver", toString ver⟩,
      ⟨"CID", item.cid⟩,
      ⟨"Op", item.op⟩,
      ⟨"Vis", item.vis⟩,
      ⟨"Seq", toString seq⟩ ]
  match prevTx with
  | some t => if t.isEmpty then tags else tags ++ [⟨"Prev-TX", t⟩]
  | none => tags

end SignDataItems

namespace Turbo

/-- `buildTags` of turbo/index.ts (Turbo direct path): the nine fixed tags,
plus `Prev-TX` and `Prev-CID` when the payload's fields are truthy. -/
def buildTags (payload : AttestationPayload) : List Tag :=
  let att := payload.attestation
  let tags : List Tag :=
    [ ⟨"Content-Type", "application/json"⟩,
      ⟨"App-Name", "Arke"⟩,
      ⟨"Type", "attestation"⟩,
      ⟨"PI", att.pi⟩,
      ⟨"Ver", toString att.ver⟩,
      ⟨"CID", att.cid⟩,
      ⟨"Op", att.op⟩,
      ⟨"Vis", att.vis⟩,
      ⟨"Seq", toString att.seq⟩ ]
  let tags :=
    match att.prev_tx with
    | some t => if t.isEmpty then tags else tags ++ [⟨"Prev-TX", t⟩]
    | none => tags
  match att.prev_cid with
  | some c => if c.isEmpty then tags else tags ++ [⟨"Prev-CID", c⟩]
  | none => tags

end Turbo

/-- The attestation payload built for a queue row during signing: common to
`signDataItemBatch`, `signItemsSequentially` and `preSignBatch`. -/
def mkPayload (item : QueueItem) (manifest : Manifest)
    (prevTx prevCid : Option String) (seq : Nat) : AttestationPayload :=
  { attestation :=
      { pi := item.entity_id
        ver := manifest.ver
        cid := item.cid
        op := item.op
        vis := item.vis
        ts := item.ts
        prev_tx := prevTx
        prev_cid := prevCid
        seq := seq }
    manifest := manifest }

/-- A record id: `base64url(SHA-256(signature))` (`DataItem.sign` followed
by the `id` getter, bundle/DataItem.ts).  `sha256` and `base64url` are
parameters of the embedding. -/
def dataItemId (sha256 base64url : String → String) (signature : String) : String :=
  base64url (sha256 signature)

/-- Loop body of `signDataItemBatch` (chain/signDataItems.ts), recursing
over the fetched rows with the running chain pointers `(prevTx, prevCid,
seq)`.  `signFn` is the deterministic signature over the DataItem's tags
and data, `manifests` the pre-fetched manifest map.  Rows without a
manifest are skipped. -/
def signDataItemsGo (signFn : List Tag → AttestationPayload → String)
    (sha256 base64url : String → String) (manifests : String → Option Manifest)
    (prevTx prevCid : Option String) (seq : Nat) :
    List QueueItem → List PendingDataItem
  | [] => []
  | item :: rest =>
    match manifests item.cid with
    | none => signDataItemsGo signFn sha256 base64url manifests prevTx prevCid seq rest
    | some manifest =>
      let seq' := seq + 1
      let payload := mkPayload item manifest prevTx prevCid seq'
      let tags := SignDataItems.buildTags item manifest.ver seq' prevTx
      let txId := dataItemId sha256 base64url (signFn tags payload)
      { queueItem := item, manifest := manifest, payload := payload,
        tags := tags, txId := txId, seq := seq' } ::
        signDataItemsGo signFn sha256 base64url manifests
          (some txId) (some item.cid) seq' rest

/-- `signDataItemBatch` (chain/signDataItems.ts): sequentially sign the
rows that have manifests, starting from the current head; each record's
`prev_tx`/`prev_cid` are the id and cid of the record signed just before
it. -/
def signDataItemBatch (signFn : List Tag → AttestationPayload → String)
    (sha256 base64url : String → String) (items : List QueueItem)
    (manifests : String → Option Manifest) (head : ChainHead) :
    List PendingDataItem :=
  signDataItemsGo signFn sha256 base64url manifests head.tx_id head.cid head.seq items

/-- Loop body of `signItemsSequentially` (turbo/index.ts): identical chain
walk, but tags are built by the Turbo `buildTags` (which also emits
`Prev-CID`). -/
def signItemsSequentiallyGo (signFn : List Tag → AttestationPayload → String)
    (sha256 base64url : String → String) (manifests : String → Option Manifest)
    (prevTx prevCid : Option String) (seq : Nat) :
    List QueueItem → List PendingDataItem
  | [] => []
  | item :: rest =>
    match manifests item.cid with
    | none => signItemsSequentiallyGo signFn sha256 base64url manifests prevTx prevCid seq rest
    | some manifest =>
      let seq' := seq + 1
      let payload := mkPayload item manifest prevTx prevCid seq'
      let tags := Turbo.buildTags payload
      let txId := dataItemId sha256 base64url (signFn tags payload)
      { queueItem := item, manifest := manifest, payload := payload,
        tags := tags, txId := txId, seq := seq' } ::
        signItemsSequentiallyGo signFn sha256 base64url manifests
          (some txId) (some item.cid) seq' rest

/-- `signItemsSequentially` (turbo/index.ts). -/
def signItemsSequentially (signFn : List Tag → AttestationPayload → String)
    (sha256 base64url : String → String) (items : List QueueItem)
    (manifests : String → Option Manifest) (head : ChainHead) :
    List PendingDataItem :=
  signItemsSequentiallyGo signFn sha256 base64url manifests head.tx_id head.cid head.seq items

/-- Per-record upload outcome (`UploadResult`). -/
structure UploadResult where
  success : Bool
  error : Option String
deriving DecidableEq, Repr, Inhabited

/-- Accumulator of the longest-successful-prefix scan inside
`finalizeBatch`. -/
structure FinalizeScan where
  succeeded : List PendingDataItem
  failedItems : List (PendingDataItem × String)
  lastSeq : Nat
  lastTx : Option String
  lastCid : Option String
  foundFailure : Bool
deriving DecidableEq, Repr, Inhabited

/-- `result?.success` for a record's outcome in the results map. -/
def uploadOk (uploadResults : String → Option UploadResult)
    (p : PendingDataItem) : Bool :=
  ((uploadResults p.txId).map (·.success)).getD false

/-- One iteration of the `for (const p of pending)` loop of
`finalizeBatch` (queue/finalize.ts): once a failure has been seen every
later record is failed with "Chain broken by earlier failure"; a success
advances the last-successful pointers; a failure (or a missing outcome)
sets the flag. -/
def finalizeScanStep (uploadResults : String → Option UploadResult)
    (acc : FinalizeScan) (p : PendingDataItem) : FinalizeScan :=
  if acc.foundFailure then
    { acc with failedItems := acc.failedItems ++ [(p, "Chain broken by earlier failure")] }
  else if uploadOk uploadResults p then
    { acc with
      succeeded := acc.succeeded ++ [p],
      lastSeq := p.seq, lastTx := some p.txId, lastCid := some p.queueItem.cid }
  else
    { acc with
      foundFailure := true,
      failedItems := acc.failedItems ++
        [(p, (((uploadResults p.txId).bind (·.error)).getD "Unknown upload error"))] }

/-- The KV value written for a finalized record. -/
def finalizeKvData (bundled : Bool) (p : PendingDataItem) : AttestationRecord :=
  { cid := p.queueItem.cid, tx := p.txId, seq := p.seq,
    ts := p.queueItem.ts, bundled := bundled }

/-- The two KV index writes per finalized record (`:{ver}` and `:latest`),
in write order. -/
def indexWrites (bundled : Bool) (ps : List PendingDataItem) :
    List (String × AttestationRecord) :=
  (ps.map fun p =>
    [(verKey p.queueItem.entity_id p.manifest.ver, finalizeKvData bundled p),
     (latestKey p.queueItem.entity_id, finalizeKvData bundled p)]).flatten

/-- The re-queue UPDATE of `finalizeBatch` (queue/finalize.ts): sets
`status='pending'`, the error message and `updated_at` — it does NOT touch
`retry_count`. -/
def requeueNoRetryInc (now : Nat) (id : Nat) (err : String)
    (queue : List QueueItem) : List QueueItem :=
  queue.map fun r =>
    if r.id = id then
      { r with status := .pending, error_message := some err, updated_at := now }
    else r

/-- The re-queue UPDATE of `finalizeBundleFailure` / `finalizeTurboFailure`:
sets `status='pending'`, `retry_count = retry_count + 1`, the error message
and `updated_at`. -/
def revertToPendingWithRetry (now : Nat) (id : Nat) (err : String)
    (queue : List QueueItem) : List QueueItem :=
  queue.map fun r =>
    if r.id = id then
      { r with
        status := .pending, retry_count := r.retry_count + 1,
        error_message := some err, updated_at := now }
    else r

/-- The chain-head update step of `finalizeBatch`:
`if (lastSuccessfulTx && lastSuccessfulTx !== originalHead.tx_id)
updateChainHead(...)`. -/
def applyChainGuard (st : WorkerState) (originalHead : ChainHead)
    (scan : FinalizeScan) : WorkerState :=
  match scan.lastTx with
  | some t =>
    if !t.isEmpty && some t != originalHead.tx_id then
      updateChainHead st t (scan.lastCid.getD "") scan.lastSeq
    else st
  | none => st

/-- `finalizeBatch` (queue/finalize.ts, legacy direct path): find the
longest successful prefix; advance the chain head to the last successful
record when there is one and it differs from the original head; write the
two index entries for each succeeded record; delete succeeded rows from
the queue; re-queue failed rows as `pending` (without incrementing
`retry_count`). -/
def finalizeBatch (pending : List PendingDataItem)
    (uploadResults : String → Option UploadResult)
    (originalHead : ChainHead) (now : Nat) (st : WorkerState) : WorkerState :=
  let scan := pending.foldl (finalizeScanStep uploadResults)
    { succeeded := [], failedItems := [], lastSeq := originalHead.seq,
      lastTx := originalHead.tx_id, lastCid := originalHead.cid,
      foundFailure := false }
  let st1 := applyChainGuard st originalHead scan
  let st2 := { st1 with index := st1.index ++ indexWrites false scan.succeeded }
  let succIds := scan.succeeded.map (·.queueItem.id)
  let st3 := { st2 with queue := st2.queue.filter fun r => !(succIds.contains r.id) }
  { st3 with
      queue := scan.failedItems.foldl
        (fun q pe => requeueNoRetryInc now pe.1.queueItem.id pe.2 q) st3.queue }

/-- `finalizeBundleSuccess` (queue/finalizeBundle.ts): nothing for an empty
bundle; otherwise advance the chain head to the last item, write two index
entries per item (with `bundled=true`) and delete all items from the
queue. -/
def finalizeBundleSuccess (pending : List PendingDataItem) (st : WorkerState) :
    WorkerState :=
  match pending.getLast? with
  | none => st
  | some lastItem =>
    let st1 := updateChainHead st lastItem.txId lastItem.queueItem.cid lastItem.seq
    let st2 := { st1 with index := st1.index ++ indexWrites true pending }
    let ids := pending.map (·.queueItem.id)
    { st2 with queue := st2.queue.filter fun r => !(ids.contains r.id) }

/-- `finalizeBundleFailure` (queue/finalizeBundle.ts): every item of the
bundle is reverted to `pending` with `retry_count + 1` and the error
message; the chain head and index are untouched. -/
def finalizeBundleFailure (pending : List PendingDataItem) (errorMessage : String)
    (now : Nat) (st : WorkerState) : WorkerState :=
  { st with
      queue := pending.foldl
        (fun q p => revertToPendingWithRetry now p.queueItem.id errorMessage q) st.queue }

/-- `finalizeTurboSuccess` (process.ts, Turbo direct path): advance the
chain head to the LAST succeeded item (regardless of failures in between),
write two index entries per succeeded item, delete the succeeded rows. -/
def finalizeTurboSuccess (succeeded : List PendingDataItem) (st : WorkerState) :
    WorkerState :=
  match succeeded.getLast? with
  | none => st
  | some lastItem =>
    let st1 := updateChainHead st lastItem.txId lastItem.queueItem.cid lastItem.seq
    let st2 := { st1 with index := st1.index ++ indexWrites false succeeded }
    let ids := succeeded.map (·.queueItem.id)
    { st2 with queue := st2.queue.filter fun r => !(ids.contains r.id) }

/-- `finalizeTurboFailure` (process.ts): each failed item's row is reverted
to `pending` with `retry_count + 1` and the per-item error (default "Turbo
upload failed"). -/
def finalizeTurboFailure (failedResults : List (PendingDataItem × Option String))
    (now : Nat) (st : WorkerState) : WorkerState :=
  { st with
      queue := failedResults.foldl
        (fun q pe => revertToPendingWithRetry now pe.1.queueItem.id
          (pe.2.getD "Turbo upload failed") q) st.queue }

/-- `revertToSigningState` (process.ts): rows of the signed batch go back
to `pending` when the bundle thresholds are not met. -/
def revertToSigningState (pending : List PendingDataItem) (now : Nat)
    (st : WorkerState) : WorkerState :=
  let ids := pending.map (·.queueItem.id)
  { st with queue := st.queue.map fun r =>
      if ids.contains r.id then { r with status := .pending, updated_at := now }
      else r }

namespace CONFIG

/-- `CONFIG.BUNDLE_SIZE_THRESHOLD` = 300 KiB. -/
def BUNDLE_SIZE_THRESHOLD : Nat := 300 * 1024

/-- `CONFIG.BUNDLE_TIME_THRESHOLD_MS` = 10 minutes. -/
def BUNDLE_TIME_THRESHOLD_MS : Nat := 10 * 60 * 1000

/-- `CONFIG.BUNDLE_SEED_GRACE_PERIOD_MS` = 10 minutes. -/
def BUNDLE_SEED_GRACE_PERIOD_MS : Nat := 10 * 60 * 1000

/-- `CONFIG.BUNDLE_SEED_TIMEOUT_MS` = 30 minutes. -/
def BUNDLE_SEED_TIMEOUT_MS : Nat := 30 * 60 * 1000

/-- `CONFIG.BUNDLE_RETENTION_MS` = 24 hours. -/
def BUNDLE_RETENTION_MS : Nat := 24 * 60 * 60 * 1000

/-- `CONFIG.MAX_RETRIES` = 5. -/
def MAX_RETRIES : Nat := 5

end CONFIG

/-- A tick's summary counters (`ProcessResult`, durations omitted). -/
structure ProcessResult where
  processed : Nat
  succeeded : Nat
  failedCount : Nat
deriving DecidableEq, Repr, Inhabited

/-- `Math.min(...pending.map(p => created_at))`: the `created_at` of the
oldest row of the signed batch. -/
def oldestCreatedAt (pending : List PendingDataItem) : Nat :=
  match pending.map (·.queueItem.created_at) with
  | [] => 0
  | t :: ts => ts.foldl Nat.min t

/-- Steps 6–8 of `processWithBundling` (process.ts), after signing: compute
the thresholds from the accumulated bundle size and the oldest queued
row's `created_at`; when neither is met, revert the signed rows to
`pending` and report `processed = 0` without uploading; otherwise perform
the upload (outcome given by `uploadOutcome`: `none` = success, `some e` =
failure) and finalize.  The returned Bool records whether the upload was
attempted. -/
def processWithBundlingStep (pending : List PendingDataItem)
    (bundleSize now itemsTotal failedNoManifest : Nat)
    (uploadOutcome : Option String) (st : WorkerState) :
    WorkerState × ProcessResult × Bool :=
  let timeWaiting := now - oldestCreatedAt pending
  let timeThresholdMet : Bool := decide (timeWaiting ≥ CONFIG.BUNDLE_TIME_THRESHOLD_MS)
  let sizeThresholdMet : Bool := decide (bundleSize ≥ CONFIG.BUNDLE_SIZE_THRESHOLD)
  if !sizeThresholdMet && !timeThresholdMet then
    (revertToSigningState pending now st, ⟨0, 0, 0⟩, false)
  else
    match uploadOutcome with
    | none =>
      (finalizeBundleSuccess pending st,
       ⟨itemsTotal, pending.length, failedNoManifest⟩, true)
    | some e =>
      (finalizeBundleFailure pending e now st,
       ⟨itemsTotal, 0, pending.length + failedNoManifest⟩, true)

/-- An `{entity_id, cid}` pair tracked for a bundle. -/
structure TrackedItem where
  entityId : String
  cid : String
deriving DecidableEq, Repr, Inhabited

/-- A tracked bundle (`PendingBundle`, verify/bundleTracker.ts). -/
structure PendingBundle where
  bundleTxId : String
  entityCids : List (String × String)
  items : Option (List TrackedItem)
  itemCount : Nat
  uploadedAt : Nat
  checkCount : Nat
  verified : Bool
  verifiedAt : Option Nat
  failedFlag : Bool
  failedAt : Option Nat
deriving DecidableEq, Repr, Inhabited

/-- `bundle.items ?? Object.entries(bundle.entityCids).map(...)` in
`requeueEntities`. -/
def itemsToRequeue (bundle : PendingBundle) : List TrackedItem :=
  bundle.items.getD (bundle.entityCids.map fun ec => ⟨ec.1, ec.2⟩)

/-- Fresh auto-increment id for an inserted queue row. -/
def nextQueueId (queue : List QueueItem) : Nat :=
  (queue.map (·.id)).foldl Nat.max 0 + 1

/-- The fresh row inserted by `requeueEntities`:
`(entity_id, cid, 'U', 'pub', now, 'pending', now, now, 0)`. -/
def requeueRowNew (now : Nat) (it : TrackedItem) (queue : List QueueItem) : QueueItem :=
  { id := nextQueueId queue
    entity_id := it.entityId
    cid := it.cid
    op := "U"
    vis := "pub"
    ts := now
    status := .pending
    retry_count := 0
    error_message := none
    created_at := now
    updated_at := now }

/-- One INSERT of `requeueEntities`: skipped when a row with the same
`(entity_id, cid)` already exists; otherwise a fresh `pending` row with
`op='U'`, `vis='pub'`, `retry_count=0` and the current timestamp. -/
def requeueInsert (now : Nat) (it : TrackedItem) (queue : List QueueItem) :
    List QueueItem × Bool :=
  if queue.any (fun r => r.entity_id == it.entityId && r.cid == it.cid) then
    (queue, false)
  else
    (queue ++ [requeueRowNew now it queue], true)

/-- `requeueEntities` (verify/bundleTracker.ts): sequentially re-insert the
bundle's `{entity_id, cid}` pairs, deduplicating against the live queue;
returns the new queue and how many rows were inserted. -/
def requeueEntities (bundle : PendingBundle) (now : Nat)
    (queue : List QueueItem) : List QueueItem × Nat :=
  (itemsToRequeue bundle).foldl
    (fun acc it =>
      let qi := requeueInsert now it acc.1
      (qi.1, acc.2 + if qi.2 then 1 else 0))
    (queue, 0)

/-- Counters of `verifyPendingBundles` (`BundleVerifyResult`). -/
structure BundleVerifyResult where
  checked : Nat
  verified : Nat
  failedCount : Nat
  pending : Nat
  requeuedEntities : Nat
deriving DecidableEq, Repr, Inhabited

/-- The evolving state of a verification pass: the rebuilt bundle list, the
live queue, the seeding-failure alerts emitted (by bundle tx id) and the
counters. -/
structure VerifyState where
  bundles : List PendingBundle
  queue : List QueueItem
  alerts : List String
  result : BundleVerifyResult
deriving DecidableEq, Repr, Inhabited

/-- One iteration of the bundle loop of `verifyPendingBundles`
(verify/bundleTracker.ts): already-processed bundles are kept as-is;
bundles younger than the grace period stay pending; otherwise the status
endpoint is consulted (`seeded`): a confirmation marks the bundle
verified; past the seed timeout (strictly) it is marked failed, its
entities are re-queued and an alert is emitted; otherwise `checkCount` is
incremented and it stays pending. -/
def verifyBundleStep (seeded : String → Bool) (now : Nat)
    (vs : VerifyState) (bundle : PendingBundle) : VerifyState :=
  if bundle.verified || bundle.failedFlag then
    { vs with bundles := vs.bundles ++ [bundle] }
  else if now - bundle.uploadedAt < CONFIG.BUNDLE_SEED_GRACE_PERIOD_MS then
    { vs with
      bundles := vs.bundles ++ [bundle],
      result := { vs.result with pending := vs.result.pending + 1 } }
  else
    let res := { vs.result with checked := vs.result.checked + 1 }
    if seeded bundle.bundleTxId then
      { vs with
        bundles := vs.bundles ++ [{ bundle with verified := true, verifiedAt := some now }],
        result := { res with verified := res.verified + 1 } }
    else if now - bundle.uploadedAt > CONFIG.BUNDLE_SEED_TIMEOUT_MS then
      let qr := requeueEntities bundle now vs.queue
      { bundles := vs.bundles ++ [{ bundle with failedFlag := true, failedAt := some now }],
        queue := qr.1,
        alerts := vs.alerts ++ [bundle.bundleTxId],
        result := { res with
                    failedCount := res.failedCount + 1,
                    requeuedEntities := res.requeuedEntities + qr.2 } }
    else
      { vs with
        bundles := vs.bundles ++ [{ bundle with checkCount := bundle.checkCount + 1 }],
        result := { res with pending := res.pending + 1 } }

/-- `savePendingBundles`: drop bundles past the retention window. -/
def savePendingBundles (now : Nat) (bundles : List PendingBundle) :
    List PendingBundle :=
  bundles.filter fun b => now - b.uploadedAt < CONFIG.BUNDLE_RETENTION_MS

/-- `verifyPendingBundles` (verify/bundleTracker.ts): fold
`verifyBundleStep` over the tracked bundles, then prune by retention. -/
def verifyPendingBundles (seeded : String → Bool) (now : Nat)
    (bundles : List PendingBundle) (queue : List QueueItem) : VerifyState :=
  let vs := bundles.foldl (verifyBundleStep seeded now)
    { bundles := [], queue := queue, alerts := [],
      result := ⟨0, 0, 0, 0, 0⟩ }
  { vs with bundles := savePendingBundles now vs.bundles }

/-! ## Lemmas about sequential signing -/

section SignLemmas

variable (signFn : List Tag → AttestationPayload → String)
variable (sha256 base64url : String → String)
variable (manifests : String → Option Manifest)

theorem signDataItemsGo_map_queueItem :
    ∀ (items : List QueueItem) (prevTx prevCid : Option String) (seq : Nat),
      (signDataItemsGo signFn sha256 base64url manifests prevTx prevCid seq items).map
          (·.queueItem)
        = items.filter (fun i => (manifests i.cid).isSome) := by
  intro items
  induction items with
  | nil => intro pt pc q; simp [signDataItemsGo]
  | cons item rest ih =>
    intro pt pc q
    cases hm : manifests item.cid with
    | none => simp [signDataItemsGo, hm, ih, List.filter_cons]
    | some mf => simp [signDataItemsGo, hm, ih, List.filter_cons]

theorem signDataItemsGo_getElem?_seq :
    ∀ (items : List QueueItem) (prevTx prevCid : Option String) (seq i : Nat)
      (p : PendingDataItem),
      (signDataItemsGo signFn sha256 base64url manifests prevTx prevCid seq items)[i]?
          = some p →
        p.seq = seq + i + 1 := by
  intro items
  induction items with
  | nil => intro pt pc q i p h; simp [signDataItemsGo] at h
  | cons item rest ih =>
    intro pt pc q i p h
    cases hm : manifests item.cid with
    | none =>
      simp only [signDataItemsGo, hm] at h
      exact ih pt pc q i p h
    | some mf =>
      simp only [signDataItemsGo, hm] at h
      cases i with
      | zero =>
        simp only [List.getElem?_cons_zero, Option.some.injEq] at h
        subst h
        rfl
      | succ i =>
        simp only [List.getElem?_cons_succ] at h
        have := ih _ _ (q + 1) i p h
        omega

theorem signDataItemsGo_head_prev :
    ∀ (items : List QueueItem) (prevTx prevCid : Option String) (seq : Nat)
      (p : PendingDataItem),
      (signDataItemsGo signFn sha256 base64url manifests prevTx prevCid seq items)[0]?
          = some p →
        p.payload.attestation.prev_tx = prevTx ∧
        p.payload.attestation.prev_cid = prevCid := by
  intro items
  induction items with
  | nil => intro pt pc q p h; simp [signDataItemsGo] at h
  | cons item rest ih =>
    intro pt pc q p h
    cases hm : manifests item.cid with
    | none =>
      simp only [signDataItemsGo, hm] at h
      exact ih pt pc q p h
    | some mf =>
      simp only [signDataItemsGo, hm, List.getElem?_cons_zero, Option.some.injEq] at h
      subst h
      exact ⟨rfl, rfl⟩

theorem signDataItemsGo_chain :
    ∀ (items : List QueueItem) (prevTx prevCid : Option String) (seq i : Nat)
      (p p' : PendingDataItem),
      (signDataItemsGo signFn sha256 base64url manifests prevTx prevCid seq items)[i]?
          = some p →
      (signDataItemsGo signFn sha256 base64url manifests prevTx prevCid seq items)[i + 1]?
          = some p' →
        p'.payload.attestation.prev_tx = some p.txId ∧
        p'.payload.attestation.prev_cid = some p.queueItem.cid := by
  intro items
  induction items with
  | nil => intro pt pc q i p p' h _; simp [signDataItemsGo] at h
  | cons item rest ih =>
    intro pt pc q i p p' h h'
    cases hm : manifests item.cid with
    | none =>
      simp only [signDataItemsGo, hm] at h h'
      exact ih pt pc q i p p' h h'
    | some mf =>
      simp only [signDataItemsGo, hm] at h h'
      cases i with
      | zero =>
        simp only [List.getElem?_cons_zero, Option.some.injEq] at h
        simp only [List.getElem?_cons_succ] at h'
        subst h
        exact signDataItemsGo_head_prev signFn sha256 base64url manifests rest _ _ _ p' h'
      | succ i =>
        simp only [List.getElem?_cons_succ] at h h'
        exact ih _ _ (q + 1) i p p' h h'

theorem signDataItemsGo_txId :
    ∀ (items : List QueueItem) (prevTx prevCid : Option String) (seq : Nat)
      (p : PendingDataItem),
      p ∈ signDataItemsGo signFn sha256 base64url manifests prevTx prevCid seq items →
        p.txId = dataItemId sha256 base64url (signFn p.tags p.payload) := by
  intro items
  induction items with
  | nil => intro pt pc q p h; simp [signDataItemsGo] at h
  | cons item rest ih =>
    intro pt pc q p h
    cases hm : manifests item.cid with
    | none =>
      simp only [signDataItemsGo, hm] at h
      exact ih pt pc q p h
    | some mf =>
      simp only [signDataItemsGo, hm, List.mem_cons] at h
      cases h with
      | inl h => subst h; rfl
      | inr h => exact ih _ _ (q + 1) p h

theorem signDataItemsGo_length :
    ∀ (items : List QueueItem) (prevTx prevCid : Option String) (seq : Nat),
      (signDataItemsGo signFn sha256 base64url manifests prevTx prevCid seq items).length
        = (items.filter (fun i => (manifests i.cid).isSome)).length := by
  intro items pt pc q
  have h := congrArg List.length
    (signDataItemsGo_map_queueItem signFn sha256 base64url manifests items pt pc q)
  simpa using h

end SignLemmas

/-! ## Concrete fixtures used by witnesses and counterexamples -/

/-- A concrete deterministic "signature": distinct payloads give distinct
signatures on the inputs used below. -/
def demoSign : List Tag → AttestationPayload → String :=
  fun _ p => "sig-" ++ toString p.attestation.seq ++ "-" ++ p.attestation.cid

/-- A concrete stand-in for SHA-256. -/
def demoSha : String → String := fun s => "sha-" ++ s

/-- A concrete stand-in for base64url. -/
def demoB64 : String → String := fun s => "b64-" ++ s

/-- A concrete non-genesis chain head. -/
def demoHead : ChainHead := { tx_id := some "TX0", cid := some "CID0", seq := 100 }

/-- A concrete queue row in `signing` state. -/
def demoRow (n : Nat) (e c : String) : QueueItem :=
  { id := n, entity_id := e, cid := c, op := "U", vis := "pub", ts := 1000 + n,
    status := .signing, retry_count := 0, error_message := none,
    created_at := 500 + n, updated_at := 600 + n }

/-- Three fetched rows. -/
def demoItems : List QueueItem :=
  [demoRow 1 "E1" "C1", demoRow 2 "E2" "C2", demoRow 3 "E3" "C3"]

/-- All manifests present. -/
def demoManAll : String → Option Manifest := fun _ => some ⟨1⟩

/-- The manifest for `C2` is missing. -/
def demoManSkip : String → Option Manifest :=
  fun c => if c = "C2" then none else some ⟨1⟩

/-- The signed batch over `demoItems` with the `C2` manifest missing. -/
def demoPs : List PendingDataItem :=
  signDataItemBatch demoSign demoSha demoB64 demoItems demoManSkip demoHead

/-! ## C4 -/

/-- C4: the signing algorithm, processing queue rows in fetch order starting
from `(prev_tx, prev_cid, s) = (head.tx, head.cid, head.seq)`, produces for
every row that has a manifest a record with sequence number `s + i + 1` (at
output position `i`), a payload whose `prev_tx`/`prev_cid` equal the id and
cid of the immediately preceding signed record (the head values for the
first record), and an id equal to `base64url(SHA-256(signature))`; rows
without manifests produce no record. -/
theorem claim_C4 (signFn : List Tag → AttestationPayload → String)
    (sha256 base64url : String → String) (items : List QueueItem)
    (manifests : String → Option Manifest) (head : ChainHead) :
    (signDataItemBatch signFn sha256 base64url items manifests head).map (·.queueItem)
        = items.filter (fun i => (manifests i.cid).isSome) ∧
    (∀ (i : Nat) (p : PendingDataItem),
      (signDataItemBatch signFn sha256 base64url items manifests head)[i]? = some p →
        p.seq = head.seq + i + 1 ∧
        p.txId = dataItemId sha256 base64url (signFn p.tags p.payload)) ∧
    (∀ (p : PendingDataItem),
      (signDataItemBatch signFn sha256 base64url items manifests head)[0]? = some p →
        p.payload.attestation.prev_tx = head.tx_id ∧
        p.payload.attestation.prev_cid = head.cid) ∧
    (∀ (i : Nat) (p p' : PendingDataItem),
      (signDataItemBatch signFn sha256 base64url items manifests head)[i]? = some p →
      (signDataItemBatch signFn sha256 base64url items manifests head)[i + 1]? = some p' →
        p'.payload.attestation.prev_tx = some p.txId ∧
        p'.payload.attestation.prev_cid = some p.queueItem.cid) := by
  unfold signDataItemBatch
  refine ⟨signDataItemsGo_map_queueItem signFn sha256 base64url manifests items _ _ _,
    ?_, ?_, ?_⟩
  · intro i p h
    exact ⟨signDataItemsGo_getElem?_seq signFn sha256 base64url manifests items _ _ _ i p h,
      signDataItemsGo_txId signFn sha256 base64url manifests items _ _ _ p
        (List.getElem?_mem h)⟩
  · intro p h
    exact signDataItemsGo_head_prev signFn sha256 base64url manifests items _ _ _ p h
  · intro i p p' h h'
    exact signDataItemsGo_chain signFn sha256 base64url manifests items _ _ _ i p p' h h'

/-- Witness for C4 at a concrete input: the middle row has no manifest and
is skipped; the second output record (position 1, built from the third
row) carries seq 102 and links to the first output record. -/
theorem claim_C4_witness :
    (demoPs[0]? = some demoPs[0]! ∧ demoPs[1]? = some demoPs[1]!) ∧
    (demoPs[1]!.seq = demoHead.seq + 1 + 1 ∧
      demoPs[1]!.txId
        = dataItemId demoSha demoB64 (demoSign demoPs[1]!.tags demoPs[1]!.payload)) ∧
    (demoPs[1]!.payload.attestation.prev_tx = some demoPs[0]!.txId ∧
      demoPs[1]!.payload.attestation.prev_cid = some demoPs[0]!.queueItem.cid) :=
  ⟨⟨by decide, by decide⟩,
    (claim_C4 demoSign demoSha demoB64 demoItems demoManSkip demoHead).2.1 1 _ (by decide),
    (claim_C4 demoSign demoSha demoB64 demoItems demoManSkip demoHead).2.2.2 0 _ _
      (by decide) (by decide)⟩

/-! ## C2 -/

/-- C2: after a successful bundle finalization of the signed records built
from `items` (all manifests present, `k = items.length ≥ 1`) starting from
`head` with sequence number `s0 = head.seq`, the records carry the
contiguous sequence numbers `s0+1, …, s0+k` in queue-fetch order, and the
chain head is advanced to `{tx = last record's id, cid = last record's
cid, seq = s0+k}`. -/
theorem claim_C2 (signFn : List Tag → AttestationPayload → String)
    (sha256 base64url : String → String) (items : List QueueItem)
    (manifests : String → Option Manifest) (head : ChainHead) (st : WorkerState)
    (hne : items ≠ [])
    (hall : ∀ i ∈ items, (manifests i.cid).isSome = true) :
    (signDataItemBatch signFn sha256 base64url items manifests head).length
        = items.length ∧
    (∀ (i : Nat) (p : PendingDataItem),
      (signDataItemBatch signFn sha256 base64url items manifests head)[i]? = some p →
        p.seq = head.seq + i + 1) ∧
    (∀ lastp : PendingDataItem,
      (signDataItemBatch signFn sha256 base64url items manifests head).getLast?
          = some lastp →
        lastp.seq = head.seq + items.length ∧
        (finalizeBundleSuccess
            (signDataItemBatch signFn sha256 base64url items manifests head) st).chain
          = { tx_id := some lastp.txId, cid := some lastp.queueItem.cid,
              seq := head.seq + items.length }) := by
  unfold signDataItemBatch
  have hlen :
      (signDataItemsGo signFn sha256 base64url manifests head.tx_id head.cid head.seq
        items).length = items.length := by
    rw [signDataItemsGo_length, List.filter_eq_self.mpr hall]
  refine ⟨hlen, ?_, ?_⟩
  · intro i p h
    exact signDataItemsGo_getElem?_seq signFn sha256 base64url manifests items _ _ _ i p h
  · intro lastp hlast
    have hget :
        (signDataItemsGo signFn sha256 base64url manifests head.tx_id head.cid head.seq
          items)[(signDataItemsGo signFn sha256 base64url manifests head.tx_id head.cid
            head.seq items).length - 1]? = some lastp := by
      rw [← List.getLast?_eq_getElem?]
      exact hlast
    have hseq :=
      signDataItemsGo_getElem?_seq signFn sha256 base64url manifests items _ _ _ _ lastp hget
    have hpos : 0 < items.length := List.length_pos.mpr hne
    have hseq' : lastp.seq = head.seq + items.length := by
      rw [hlen] at hseq
      omega
    refine ⟨hseq', ?_⟩
    simp only [finalizeBundleSuccess, hlast]
    simp [updateChainHead, hseq']

/-- The bundle-of-three chain head `{TX0, CID0, 10}`. -/
def demoHead10 : ChainHead := { tx_id := some "TX0", cid := some "CID0", seq := 10 }

/-- Manifests with versions 1, 2, 1 for the three rows. -/
def demoManVer : String → Option Manifest :=
  fun c => if c = "C2" then some ⟨2⟩ else some ⟨1⟩

/-- State holding the three queue rows at head `{TX0, CID0, 10}`. -/
def bundleSt : WorkerState := { queue := demoItems, chain := demoHead10, index := [] }

/-- The three signed records of the bundle-of-three scenario. -/
def bundlePs : List PendingDataItem :=
  signDataItemBatch demoSign demoSha demoB64 demoItems demoManVer demoHead10

/-- Witness for C2: the bundle-of-three scenario.  Head `{TX0, CID0, 10}`,
three rows; the published seq values are exactly 11, 12, 13 and the
post-state head is `{last tx, C3, 13}`. -/
theorem claim_C2_witness :
    bundlePs.length = 3 ∧
    bundlePs.map (·.seq) = [11, 12, 13] ∧
    bundlePs.getLast? = some bundlePs[2]! ∧
    bundlePs[2]!.seq = demoHead10.seq + demoItems.length ∧
    (finalizeBundleSuccess bundlePs bundleSt).chain
      = { tx_id := some bundlePs[2]!.txId, cid := some "C3", seq := 13 } := by
  have h := claim_C2 demoSign demoSha demoB64 demoItems demoManVer demoHead10 bundleSt
    (by decide) (by decide)
  have h3 := h.2.2 bundlePs[2]! (by decide)
  refine ⟨by decide, by decide, by decide, h3.1, ?_⟩
  rw [show finalizeBundleSuccess bundlePs bundleSt
      = finalizeBundleSuccess
          (signDataItemBatch demoSign demoSha demoB64 demoItems demoManVer demoHead10)
          bundleSt from rfl, h3.2]
  decide

/-! ## The longest-prefix scan of finalizeBatch -/

/-- Modelled from the spec: the longest successful prefix of the batch, in
signing order. -/
def successRun (uploadResults : String → Option UploadResult)
    (ps : List PendingDataItem) : List PendingDataItem :=
  ps.takeWhile (uploadOk uploadResults)

/-- Everything after the first failure, in signing order. -/
def failureTail (uploadResults : String → Option UploadResult)
    (ps : List PendingDataItem) : List PendingDataItem :=
  ps.dropWhile (uploadOk uploadResults)

theorem foldl_scanStep_found (res : String → Option UploadResult) :
    ∀ (ps : List PendingDataItem) (S : List PendingDataItem)
      (F : List (PendingDataItem × String)) (L1 : Nat) (L2 L3 : Option String),
      ps.foldl (finalizeScanStep res) ⟨S, F, L1, L2, L3, true⟩
        = ⟨S, F ++ ps.map (fun p => (p, "Chain broken by earlier failure")),
            L1, L2, L3, true⟩ := by
  intro ps
  induction ps with
  | nil => intro S F L1 L2 L3; simp
  | cons p ps ih =>
    intro S F L1 L2 L3
    simp only [List.foldl_cons, finalizeScanStep, if_true]
    rw [ih]
    simp

theorem foldl_scanStep_ok (res : String → Option UploadResult) :
    ∀ (ps : List PendingDataItem) (S : List PendingDataItem)
      (F : List (PendingDataItem × String)) (L1 : Nat) (L2 L3 : Option String),
      (ps.foldl (finalizeScanStep res) ⟨S, F, L1, L2, L3, false⟩).succeeded
          = S ++ ps.takeWhile (uploadOk res) ∧
      (ps.foldl (finalizeScanStep res) ⟨S, F, L1, L2, L3, false⟩).failedItems.map Prod.fst
          = F.map Prod.fst ++ ps.dropWhile (uploadOk res) ∧
      ((ps.takeWhile (uploadOk res)).getLast? = none →
        (ps.foldl (finalizeScanStep res) ⟨S, F, L1, L2, L3, false⟩).lastSeq = L1 ∧
        (ps.foldl (finalizeScanStep res) ⟨S, F, L1, L2, L3, false⟩).lastTx = L2 ∧
        (ps.foldl (finalizeScanStep res) ⟨S, F, L1, L2, L3, false⟩).lastCid = L3) ∧
      (∀ q : PendingDataItem, (ps.takeWhile (uploadOk res)).getLast? = some q →
        (ps.foldl (finalizeScanStep res) ⟨S, F, L1, L2, L3, false⟩).lastSeq = q.seq ∧
        (ps.foldl (finalizeScanStep res) ⟨S, F, L1, L2, L3, false⟩).lastTx = some q.txId ∧
        (ps.foldl (finalizeScanStep res) ⟨S, F, L1, L2, L3, false⟩).lastCid
          = some q.queueItem.cid) := by
  intro ps
  induction ps with
  | nil =>
    intro S F L1 L2 L3
    refine ⟨by simp, by simp, fun _ => ⟨rfl, rfl, rfl⟩, fun q hq => by simp at hq⟩
  | cons p ps ih =>
    intro S F L1 L2 L3
    by_cases hok : uploadOk res p = true
    · have hstep : finalizeScanStep res ⟨S, F, L1, L2, L3, false⟩ p
          = ⟨S ++ [p], F, p.seq, some p.txId, some p.queueItem.cid, false⟩ := by
        simp [finalizeScanStep, hok]
      have ihp := ih (S ++ [p]) F p.seq (some p.txId) (some p.queueItem.cid)
      simp only [List.foldl_cons, hstep]
      rw [List.takeWhile_cons_of_pos hok, List.dropWhile_cons_of_pos hok]
      refine ⟨by rw [ihp.1]; simp, by rw [ihp.2.1], ?_, ?_⟩
      · intro hnone
        have hne : (p :: ps.takeWhile (uploadOk res)) ≠ [] := by simp
        rw [← List.getLast?_isSome, hnone] at hne
        simp at hne
      · intro q hq
        cases htk : ps.takeWhile (uploadOk res) with
        | nil =>
          rw [htk] at hq
          simp only [List.getLast?_singleton, Option.some.injEq] at hq
          subst hq
          exact (ih (S ++ [p]) F p.seq (some p.txId) (some p.queueItem.cid)).2.2.1
            (by rw [htk]; rfl)
        | cons a t =>
          have hq' : (ps.takeWhile (uploadOk res)).getLast? = some q := by
            rw [htk]
            rw [htk, List.getLast?_cons_cons] at hq
            exact hq
          exact ihp.2.2.2 q hq'
    · have hok' : uploadOk res p = false := by
        simpa using hok
      have hstep : finalizeScanStep res ⟨S, F, L1, L2, L3, false⟩ p
          = ⟨S, F ++ [(p, ((res p.txId).bind (·.error)).getD "Unknown upload error")],
              L1, L2, L3, true⟩ := by
        simp [finalizeScanStep, hok']
      simp only [List.foldl_cons, hstep]
      rw [foldl_scanStep_found,
        List.takeWhile_cons_of_neg (by simp [hok']),
        List.dropWhile_cons_of_neg (by simp [hok'])]
      refine ⟨by simp, by simp [Function.comp_def], fun _ => ⟨rfl, rfl, rfl⟩,
        fun q hq => by simp at hq⟩

/-! ## Queue-update fold lemmas -/

/-- The per-row update of the `finalizeBatch` re-queue (no retry_count). -/
def requeueRowUpd (now : Nat) (pe : PendingDataItem × String) (r : QueueItem) : QueueItem :=
  if r.id = pe.1.queueItem.id then
    { r with
      status := .pending, error_message := some pe.2, updated_at := now }
  else r

/-- The per-row update of the bundle/turbo failure re-queue
(`retry_count + 1`). -/
def pendRowUpd (now : Nat) (idv : Nat) (err : String) (r : QueueItem) : QueueItem :=
  if r.id = idv then
    { r with
      status := .pending, retry_count := r.retry_count + 1,
      error_message := some err, updated_at := now }
  else r

/-- Folding the `finalizeBatch` re-queue over the queue equals mapping a
per-row fold. -/
theorem requeue_foldl_comm (now : Nat) :
    ∀ (fs : List (PendingDataItem × String)) (q : List QueueItem),
      fs.foldl (fun q pe => requeueNoRetryInc now pe.1.queueItem.id pe.2 q) q
        = q.map (fun r => fs.foldl (fun r pe => requeueRowUpd now pe r) r) := by
  intro fs
  induction fs with
  | nil => intro q; simp
  | cons f fs ih =>
    intro q
    simp only [List.foldl_cons]
    rw [show requeueNoRetryInc now f.1.queueItem.id f.2 q
        = q.map (requeueRowUpd now f) from rfl]
    rw [ih, List.map_map]
    rfl

/-- Folding the bundle-failure re-queue over the queue equals mapping a
per-row fold. -/
theorem revert_foldl_comm_bundle (now : Nat) (errorMessage : String) :
    ∀ (fs : List PendingDataItem) (q : List QueueItem),
      fs.foldl (fun q p => revertToPendingWithRetry now p.queueItem.id errorMessage q) q
        = q.map (fun r => fs.foldl
            (fun r p => pendRowUpd now p.queueItem.id errorMessage r) r) := by
  intro fs
  induction fs with
  | nil => intro q; simp
  | cons f fs ih =>
    intro q
    simp only [List.foldl_cons]
    rw [show revertToPendingWithRetry now f.queueItem.id errorMessage q
        = q.map (pendRowUpd now f.queueItem.id errorMessage) from rfl]
    rw [ih, List.map_map]
    rfl

/-- Folding the turbo-failure re-queue over the queue equals mapping a
per-row fold. -/
theorem revert_foldl_comm_turbo (now : Nat) :
    ∀ (fs : List (PendingDataItem × Option String)) (q : List QueueItem),
      fs.foldl (fun q pe => revertToPendingWithRetry now pe.1.queueItem.id
          (pe.2.getD "Turbo upload failed") q) q
        = q.map (fun r => fs.foldl (fun r pe => pendRowUpd now pe.1.queueItem.id
            (pe.2.getD "Turbo upload failed") r) r) := by
  intro fs
  induction fs with
  | nil => intro q; simp
  | cons f fs ih =>
    intro q
    simp only [List.foldl_cons]
    rw [show revertToPendingWithRetry now f.1.queueItem.id
          (f.2.getD "Turbo upload failed") q
        = q.map (pendRowUpd now f.1.queueItem.id (f.2.getD "Turbo upload failed"))
        from rfl]
    rw [ih, List.map_map]
    rfl

theorem requeueRowUpd_fold_id (now : Nat) :
    ∀ (fs : List (PendingDataItem × String)) (r : QueueItem),
      (fs.foldl (fun r pe => requeueRowUpd now pe r) r).id = r.id := by
  intro fs
  induction fs with
  | nil => intro r; rfl
  | cons f fs ih =>
    intro r
    simp only [List.foldl_cons]
    rw [ih]
    by_cases h : r.id = f.1.queueItem.id <;> simp [requeueRowUpd, h]

theorem requeueRowUpd_fold_retry (now : Nat) :
    ∀ (fs : List (PendingDataItem × String)) (r : QueueItem),
      (fs.foldl (fun r pe => requeueRowUpd now pe r) r).retry_count = r.retry_count := by
  intro fs
  induction fs with
  | nil => intro r; rfl
  | cons f fs ih =>
    intro r
    simp only [List.foldl_cons]
    rw [ih]
    by_cases h : r.id = f.1.queueItem.id <;> simp [requeueRowUpd, h]

theorem requeueRowUpd_fold_not_mem (now : Nat) :
    ∀ (fs : List (PendingDataItem × String)) (r : QueueItem),
      r.id ∉ fs.map (fun pe => pe.1.queueItem.id) →
        fs.foldl (fun r pe => requeueRowUpd now pe r) r = r := by
  intro fs
  induction fs with
  | nil => intro r _; rfl
  | cons f fs ih =>
    intro r h
    simp only [List.map_cons, List.mem_cons, not_or] at h
    simp only [List.foldl_cons, requeueRowUpd, if_neg h.1]
    exact ih r h.2

theorem requeueRowUpd_fold_preserve (now : Nat) :
    ∀ (fs : List (PendingDataItem × String)) (r : QueueItem),
      r.status = .pending → r.error_message.isSome →
        (fs.foldl (fun r pe => requeueRowUpd now pe r) r).status = .pending ∧
        (fs.foldl (fun r pe => requeueRowUpd now pe r) r).error_message.isSome := by
  intro fs
  induction fs with
  | nil => intro r h1 h2; exact ⟨h1, h2⟩
  | cons f fs ih =>
    intro r h1 h2
    simp only [List.foldl_cons]
    by_cases h : r.id = f.1.queueItem.id
    · exact ih _ (by simp [requeueRowUpd, h]) (by simp [requeueRowUpd, h])
    · rw [show requeueRowUpd now f r = r by simp [requeueRowUpd, h]]
      exact ih r h1 h2

theorem requeueRowUpd_fold_mem (now : Nat) :
    ∀ (fs : List (PendingDataItem × String)) (r : QueueItem),
      r.id ∈ fs.map (fun pe => pe.1.queueItem.id) →
        (fs.foldl (fun r pe => requeueRowUpd now pe r) r).status = .pending ∧
        (fs.foldl (fun r pe => requeueRowUpd now pe r) r).error_message.isSome := by
  intro fs
  induction fs with
  | nil => intro r h; simp at h
  | cons f fs ih =>
    intro r h
    simp only [List.foldl_cons]
    by_cases hid : r.id = f.1.queueItem.id
    · exact requeueRowUpd_fold_preserve now fs _
        (by simp [requeueRowUpd, hid]) (by simp [requeueRowUpd, hid])
    · rw [show requeueRowUpd now f r = r by simp [requeueRowUpd, hid]]
      simp only [List.map_cons, List.mem_cons] at h
      exact ih r (h.resolve_left hid)

theorem pendRowUpd_fold_id {α : Type} (now : Nat) (idOf : α → Nat) (errOf : α → String) :
    ∀ (fs : List α) (r : QueueItem),
      (fs.foldl (fun r a => pendRowUpd now (idOf a) (errOf a) r) r).id = r.id := by
  intro fs
  induction fs with
  | nil => intro r; rfl
  | cons f fs ih =>
    intro r
    simp only [List.foldl_cons]
    rw [ih]
    by_cases h : r.id = idOf f <;> simp [pendRowUpd, h]

theorem pendRowUpd_fold_not_mem {α : Type} (now : Nat) (idOf : α → Nat) (errOf : α → String) :
    ∀ (fs : List α) (r : QueueItem),
      r.id ∉ fs.map idOf →
        fs.foldl (fun r a => pendRowUpd now (idOf a) (errOf a) r) r = r := by
  intro fs
  induction fs with
  | nil => intro r _; rfl
  | cons f fs ih =>
    intro r h
    simp only [List.map_cons, List.mem_cons, not_or] at h
    simp only [List.foldl_cons, pendRowUpd, if_neg h.1]
    exact ih r h.2

theorem pendRowUpd_fold_once {α : Type} (now : Nat) (idOf : α → Nat) (errOf : α → String) :
    ∀ (fs : List α) (r : QueueItem),
      (fs.map idOf).Nodup → r.id ∈ fs.map idOf →
        (fs.foldl (fun r a => pendRowUpd now (idOf a) (errOf a) r) r).status = .pending ∧
        (fs.foldl (fun r a => pendRowUpd now (idOf a) (errOf a) r) r).retry_count
          = r.retry_count + 1 ∧
        (fs.foldl (fun r a => pendRowUpd now (idOf a) (errOf a) r) r).error_message.isSome := by
  intro fs
  induction fs with
  | nil => intro r _ h; simp at h
  | cons f fs ih =>
    intro r hnd h
    simp only [List.map_cons, List.nodup_cons] at hnd
    simp only [List.foldl_cons]
    by_cases hid : r.id = idOf f
    · have hupd : pendRowUpd now (idOf f) (errOf f) r
          = { r with
              status := .pending, retry_count := r.retry_count + 1,
              error_message := some (errOf f), updated_at := now } := by
        simp [pendRowUpd, hid]
      rw [hupd]
      have hnm : ({ r with
          status := Status.pending, retry_count := r.retry_count + 1,
          error_message := some (errOf f), updated_at := now } : QueueItem).id
            ∉ fs.map idOf := by
        simpa [hid] using hnd.1
      rw [pendRowUpd_fold_not_mem now idOf errOf fs _ hnm]
      exact ⟨rfl, rfl, rfl⟩
    · rw [show pendRowUpd now (idOf f) (errOf f) r = r by simp [pendRowUpd, hid]]
      simp only [List.map_cons, List.mem_cons] at h
      exact ih r hnd.2 (h.resolve_left hid)

/-! ## Characterization of finalizeBatch -/

theorem applyChainGuard_queue (st : WorkerState) (head : ChainHead)
    (scan : FinalizeScan) :
    (applyChainGuard st head scan).queue = st.queue := by
  unfold applyChainGuard
  cases scan.lastTx with
  | none => rfl
  | some t =>
    by_cases hg : !t.isEmpty && (some t != head.tx_id) <;> simp [hg, updateChainHead]

theorem applyChainGuard_index (st : WorkerState) (head : ChainHead)
    (scan : FinalizeScan) :
    (applyChainGuard st head scan).index = st.index := by
  unfold applyChainGuard
  cases scan.lastTx with
  | none => rfl
  | some t =>
    by_cases hg : !t.isEmpty && (some t != head.tx_id) <;> simp [hg, updateChainHead]

theorem finalizeBatch_chain_empty (res : String → Option UploadResult)
    (pending : List PendingDataItem) (head : ChainHead) (now : Nat) (st : WorkerState)
    (h : pending.takeWhile (uploadOk res) = []) :
    (finalizeBatch pending res head now st).chain = st.chain := by
  have hscan := foldl_scanStep_ok res pending [] [] head.seq head.tx_id head.cid
  have hlast := hscan.2.2.1 (by rw [h]; rfl)
  simp only [finalizeBatch]
  show (applyChainGuard st head _).chain = st.chain
  unfold applyChainGuard
  rw [hlast.2.1]
  cases htx : head.tx_id with
  | none => rfl
  | some t => simp

theorem finalizeBatch_chain_last (res : String → Option UploadResult)
    (pending : List PendingDataItem) (head : ChainHead) (now : Nat) (st : WorkerState)
    (q : PendingDataItem)
    (h : (pending.takeWhile (uploadOk res)).getLast? = some q) :
    (finalizeBatch pending res head now st).chain
      = if !q.txId.isEmpty && (some q.txId != head.tx_id) then
          { tx_id := some q.txId, cid := some q.queueItem.cid, seq := q.seq }
        else st.chain := by
  have hscan := foldl_scanStep_ok res pending [] [] head.seq head.tx_id head.cid
  have hlast := hscan.2.2.2 q h
  simp only [finalizeBatch]
  show (applyChainGuard st head _).chain = _
  unfold applyChainGuard
  rw [hlast.2.1, hlast.1, hlast.2.2]
  by_cases hg : !q.txId.isEmpty && (some q.txId != head.tx_id)
  · simp [hg, updateChainHead]
  · simp [hg]

theorem finalizeBatch_index (res : String → Option UploadResult)
    (pending : List PendingDataItem) (head : ChainHead) (now : Nat) (st : WorkerState) :
    (finalizeBatch pending res head now st).index
      = st.index ++ indexWrites false (pending.takeWhile (uploadOk res)) := by
  have hsucc := (foldl_scanStep_ok res pending [] [] head.seq head.tx_id head.cid).1
  simp only [List.nil_append] at hsucc
  simp only [finalizeBatch, hsucc]
  rw [applyChainGuard_index]

theorem finalizeBatch_queue_shape (res : String → Option UploadResult)
    (pending : List PendingDataItem) (head : ChainHead) (now : Nat) (st : WorkerState) :
    (finalizeBatch pending res head now st).queue
      = (st.queue.filter fun r =>
          !(((pending.takeWhile (uploadOk res)).map (·.queueItem.id)).contains r.id)).map
          (fun r => (pending.foldl (finalizeScanStep res)
              ⟨[], [], head.seq, head.tx_id, head.cid, false⟩).failedItems.foldl
            (fun r pe => requeueRowUpd now pe r) r) := by
  have hsucc := (foldl_scanStep_ok res pending [] [] head.seq head.tx_id head.cid).1
  simp only [List.nil_append] at hsucc
  have hcomm := requeue_foldl_comm now
    (pending.foldl (finalizeScanStep res)
      ⟨[], [], head.seq, head.tx_id, head.cid, false⟩).failedItems
  simp only [finalizeBatch, hsucc]
  rw [applyChainGuard_queue, ← hsucc, hcomm]

theorem finalizeBatch_failedIds (res : String → Option UploadResult)
    (pending : List PendingDataItem) (head : ChainHead) :
    (pending.foldl (finalizeScanStep res)
        ⟨[], [], head.seq, head.tx_id, head.cid, false⟩).failedItems.map
        (fun pe => pe.1.queueItem.id)
      = (pending.dropWhile (uploadOk res)).map (·.queueItem.id) := by
  have hfail := (foldl_scanStep_ok res pending [] [] head.seq head.tx_id head.cid).2.1
  simp only [List.map_nil, List.nil_append] at hfail
  have h := congrArg (List.map (·.queueItem.id)) hfail
  simpa [List.map_map, Function.comp_def] using h

theorem finalizeBatch_failed_rows (res : String → Option UploadResult)
    (pending : List PendingDataItem) (head : ChainHead) (now : Nat) (st : WorkerState) :
    ∀ r ∈ (finalizeBatch pending res head now st).queue,
      r.id ∈ (pending.dropWhile (uploadOk res)).map (·.queueItem.id) →
        r.status = .pending ∧ r.error_message.isSome := by
  intro r hr hid
  rw [finalizeBatch_queue_shape] at hr
  obtain ⟨r0, hr0, rfl⟩ := List.mem_map.mp hr
  rw [requeueRowUpd_fold_id] at hid
  have hid0 : r0.id ∈ (pending.foldl (finalizeScanStep res)
      ⟨[], [], head.seq, head.tx_id, head.cid, false⟩).failedItems.map
      (fun pe => pe.1.queueItem.id) := by
    rw [finalizeBatch_failedIds res pending head]
    exact hid
  exact requeueRowUpd_fold_mem now _ r0 hid0

theorem finalizeBatch_rows_from (res : String → Option UploadResult)
    (pending : List PendingDataItem) (head : ChainHead) (now : Nat) (st : WorkerState) :
    ∀ r ∈ (finalizeBatch pending res head now st).queue,
      ∃ r0 ∈ st.queue, r.id = r0.id ∧ r.retry_count = r0.retry_count := by
  intro r hr
  rw [finalizeBatch_queue_shape] at hr
  obtain ⟨r0, hr0, rfl⟩ := List.mem_map.mp hr
  exact ⟨r0, List.mem_of_mem_filter hr0,
    requeueRowUpd_fold_id now _ r0, requeueRowUpd_fold_retry now _ r0⟩

/-! ## C1 -/

/-- C1 (amended): on the legacy direct path, `finalizeBatch` computes the
longest successful prefix of the per-record outcomes in signing order: the
records strictly before the first failure are finalized (index entries
written, queue rows deleted), the chain head advances to the last record
of that prefix — by exactly the prefix length — and is left unchanged when
the prefix is empty, and every record from the first failure onward is
reverted to `pending`.  (The Turbo direct path does not obey this rule;
see the counterexample.) -/
theorem claim_C1 (res : String → Option UploadResult)
    (pending : List PendingDataItem) (head : ChainHead) (now : Nat) (st : WorkerState)
    (hseq : ∀ (i : Nat) (p : PendingDataItem), pending[i]? = some p →
      p.seq = head.seq + i + 1)
    (hfresh : ∀ p ∈ pending, some p.txId ≠ head.tx_id ∧ p.txId.isEmpty = false) :
    (successRun res pending = [] →
      (finalizeBatch pending res head now st).chain = st.chain) ∧
    (∀ q : PendingDataItem, (successRun res pending).getLast? = some q →
      (finalizeBatch pending res head now st).chain
        = { tx_id := some q.txId, cid := some q.queueItem.cid,
            seq := head.seq + (successRun res pending).length }) ∧
    (finalizeBatch pending res head now st).index
      = st.index ++ indexWrites false (successRun res pending) ∧
    (finalizeBatch pending res head now st).queue.map (·.id)
      = (st.queue.filter (fun r =>
          !(((successRun res pending).map (·.queueItem.id)).contains r.id))).map (·.id) ∧
    (∀ r ∈ (finalizeBatch pending res head now st).queue,
      r.id ∈ (failureTail res pending).map (·.queueItem.id) →
        r.status = .pending ∧ r.error_message.isSome) := by
  simp only [successRun, failureTail]
  refine ⟨?_, ?_, finalizeBatch_index res pending head now st, ?_,
    finalizeBatch_failed_rows res pending head now st⟩
  · intro h
    exact finalizeBatch_chain_empty res pending head now st h
  · intro q hq
    have hmem : q ∈ pending.takeWhile (uploadOk res) := List.mem_of_mem_getLast? hq
    have hmem' : q ∈ pending := (List.takeWhile_prefix (uploadOk res)).subset hmem
    have hf := hfresh q hmem'
    have hg : (!q.txId.isEmpty && (some q.txId != head.tx_id)) = true := by
      rw [Bool.and_eq_true, Bool.not_eq_true', bne_iff_ne]
      exact ⟨hf.2, hf.1⟩
    have hne : pending.takeWhile (uploadOk res) ≠ [] := by
      intro hnil
      rw [hnil] at hq
      exact absurd hq (by simp)
    have hpos : 0 < (pending.takeWhile (uploadOk res)).length := List.length_pos.mpr hne
    have hgetlast : (pending.takeWhile (uploadOk res))[
        (pending.takeWhile (uploadOk res)).length - 1]? = some q := by
      rw [← List.getLast?_eq_getElem?]
      exact hq
    have hlen_le : (pending.takeWhile (uploadOk res)).length ≤ pending.length :=
      (List.takeWhile_prefix (uploadOk res)).length_le
    have hb' : (pending.takeWhile (uploadOk res)).length - 1
        < (pending.takeWhile (uploadOk res)).length := by omega
    have hb : (pending.takeWhile (uploadOk res)).length - 1 < pending.length := by omega
    have hpend : pending[(pending.takeWhile (uploadOk res)).length - 1]? = some q := by
      rw [List.getElem?_eq_getElem hb,
        ← (List.takeWhile_prefix (uploadOk res)).getElem hb']
      rw [List.getElem?_eq_getElem hb'] at hgetlast
      exact hgetlast
    have hqseq := hseq _ q hpend
    have hqseq' : q.seq = head.seq + (pending.takeWhile (uploadOk res)).length := by
      rw [hqseq]
      omega
    rw [finalizeBatch_chain_last res pending head now st q hq]
    rw [hg]
    simp only [if_true]
    rw [hqseq']
  · rw [finalizeBatch_queue_shape res pending head now st, List.map_map]
    exact List.map_congr_left fun r _ => requeueRowUpd_fold_id now _ r

/-- Five fetched rows for the direct-mode middle-failure scenario. -/
def directItems : List QueueItem :=
  [demoRow 1 "E1" "C1", demoRow 2 "E2" "C2", demoRow 3 "E3" "C3",
   demoRow 4 "E4" "C4", demoRow 5 "E5" "C5"]

/-- The five signed records (all manifests present), head seq 100. -/
def directPs : List PendingDataItem :=
  signDataItemBatch demoSign demoSha demoB64 directItems demoManAll demoHead

/-- Outcomes [ok, ok, fail, ok, ok], keyed by record id. -/
def directRes : String → Option UploadResult :=
  fun t => if t = directPs[2]!.txId then some ⟨false, some "upload rejected"⟩
           else some ⟨true, none⟩

/-- Initial state of the direct-mode scenario. -/
def directSt : WorkerState := { queue := directItems, chain := demoHead, index := [] }

/-- Witness for C1 (amended) at the `[ok, ok, fail, ok, ok]` input: the
longest successful prefix is the first two records, the head advances by
exactly 2 (seq 100 → 102) to the second record, and exactly rows 1 and 2
are deleted from the queue. -/
theorem claim_C1_witness :
    successRun directRes directPs = [directPs[0]!, directPs[1]!] ∧
    (finalizeBatch directPs directRes demoHead 9999 directSt).chain
      = { tx_id := some directPs[1]!.txId, cid := some "C2", seq := 102 } ∧
    (finalizeBatch directPs directRes demoHead 9999 directSt).queue.map (·.id)
      = [3, 4, 5] := by
  have h := claim_C1 directRes directPs demoHead 9999 directSt
    (fun i p hp => signDataItemsGo_getElem?_seq demoSign demoSha demoB64 demoManAll
      directItems demoHead.tx_id demoHead.cid demoHead.seq i p hp)
    (by decide)
  refine ⟨by decide, ?_, ?_⟩
  · rw [h.2.1 directPs[1]! (by decide)]
    decide
  · rw [h.2.2.2.1]
    decide

/-- The five Turbo-signed records of the same scenario. -/
def turboPs : List PendingDataItem :=
  signItemsSequentially demoSign demoSha demoB64 directItems demoManAll demoHead

/-- `batchResult.succeeded` under outcomes [ok, ok, fail, ok, ok]: every
individually-succeeded record, including the two after the failure. -/
def turboSucceeded : List PendingDataItem :=
  [turboPs[0]!, turboPs[1]!, turboPs[3]!, turboPs[4]!]

/-- The state after the Turbo finalization of the scenario: success
finalization over the four succeeded records, then failure finalization of
the third. -/
def turboSt2 : WorkerState :=
  finalizeTurboFailure [(turboPs[2]!, some "upload rejected")] 9999
    (finalizeTurboSuccess turboSucceeded directSt)

/-- Counterexample to C1 as stated: the claim quantifies over direct
(non-bundle) finalization, but the Turbo direct path
(`finalizeTurboSuccess`/`finalizeTurboFailure`, process.ts) does not
compute the longest successful prefix: on outcomes [ok, ok, fail, ok, ok]
it finalizes four records (only row 3 stays queued) and advances the head
to seq 105 — not, as the claim requires, exactly the first two records
with the head advancing by exactly 2 (to seq 102). -/
theorem claim_C1_counterexample :
    turboSt2.chain.seq = 105 ∧
    turboSt2.chain.seq ≠ 102 ∧
    turboSt2.queue.map (·.id) = [3] ∧
    turboSt2.chain.tx_id = some turboPs[4]!.txId := by decide

/-! ## C3 -/

theorem pendRow_fold_const_of_mem (now : Nat) (err : String) :
    ∀ (fs : List PendingDataItem) (r : QueueItem),
      (fs.map (·.queueItem.id)).Nodup → r.id ∈ fs.map (·.queueItem.id) →
        fs.foldl (fun r p => pendRowUpd now p.queueItem.id err r) r
          = { r with
              status := .pending, retry_count := r.retry_count + 1,
              error_message := some err, updated_at := now } := by
  intro fs
  induction fs with
  | nil => intro r _ h; simp at h
  | cons f fs ih =>
    intro r hnd h
    simp only [List.map_cons, List.nodup_cons] at hnd
    simp only [List.foldl_cons]
    by_cases hid : r.id = f.queueItem.id
    · have hupd : pendRowUpd now f.queueItem.id err r
          = { r with
              status := .pending, retry_count := r.retry_count + 1,
              error_message := some err, updated_at := now } := by
        simp [pendRowUpd, hid]
      rw [hupd]
      have hnm : ({ r with
          status := Status.pending, retry_count := r.retry_count + 1,
          error_message := some err, updated_at := now } : QueueItem).id
            ∉ fs.map (·.queueItem.id) := by
        simpa [hid] using hnd.1
      exact pendRowUpd_fold_not_mem now (fun p => p.queueItem.id) (fun _ => err) fs _ hnm
    · rw [show pendRowUpd now f.queueItem.id err r = r by simp [pendRowUpd, hid]]
      simp only [List.map_cons, List.mem_cons] at h
      exact ih r hnd.2 (h.resolve_left hid)

/-- C3: when the bundle upload fails, `finalizeBundleFailure` does not
advance the chain head, writes no index entry, deletes no queue row, and
reverts every row of the bundle to `pending` with `retry_count` incremented
by one and the error message recorded; rows outside the bundle are left
unchanged. -/
theorem claim_C3 (pending : List PendingDataItem) (errorMessage : String)
    (now : Nat) (st : WorkerState)
    (hnd : (pending.map (·.queueItem.id)).Nodup) :
    (finalizeBundleFailure pending errorMessage now st).chain = st.chain ∧
    (finalizeBundleFailure pending errorMessage now st).index = st.index ∧
    (finalizeBundleFailure pending errorMessage now st).queue
      = st.queue.map (fun r =>
          if r.id ∈ pending.map (·.queueItem.id) then
            { r with
              status := .pending, retry_count := r.retry_count + 1,
              error_message := some errorMessage, updated_at := now }
          else r) := by
  refine ⟨rfl, rfl, ?_⟩
  simp only [finalizeBundleFailure]
  rw [revert_foldl_comm_bundle now errorMessage pending st.queue]
  refine List.map_congr_left fun r _ => ?_
  by_cases h : r.id ∈ pending.map (·.queueItem.id)
  · rw [pendRow_fold_const_of_mem now errorMessage pending r hnd h, if_pos h]
  · rw [pendRowUpd_fold_not_mem now (fun p => p.queueItem.id) (fun _ => errorMessage)
      pending r h, if_neg h]

/-- Witness for C3: the bundle-of-three scenario with a failed bundle
upload.  Head unchanged, no index writes, all three rows back to `pending`
with `retry_count` 1 and the error recorded. -/
theorem claim_C3_witness :
    (finalizeBundleFailure bundlePs "bundle upload failed" 9999 bundleSt).chain
      = demoHead10 ∧
    (finalizeBundleFailure bundlePs "bundle upload failed" 9999 bundleSt).index = [] ∧
    (finalizeBundleFailure bundlePs "bundle upload failed" 9999 bundleSt).queue.map
        (fun r => (r.id, r.status, r.retry_count, r.error_message))
      = [(1, .pending, 1, some "bundle upload failed"),
         (2, .pending, 1, some "bundle upload failed"),
         (3, .pending, 1, some "bundle upload failed")] := by
  have h := claim_C3 bundlePs "bundle upload failed" 9999 bundleSt (by decide)
  refine ⟨h.1, h.2.1, ?_⟩
  rw [h.2.2]
  decide

/-! ## C5 -/

/-- C5: for every finalization path, the chain head's seq never decreases
(post seq ≥ pre seq) and the head's tx changes iff its seq changes; the
failure and revert paths leave the chain head untouched.  Hypotheses: the
signed records carry seq values above the pre-tick head (as produced by
signing from it) and fresh ids. -/
theorem claim_C5 (res : String → Option UploadResult)
    (pending : List PendingDataItem)
    (failedResults : List (PendingDataItem × Option String))
    (errorMessage : String) (now : Nat) (st : WorkerState)
    (hseqmem : ∀ p ∈ pending, st.chain.seq < p.seq)
    (hfresh : ∀ p ∈ pending, some p.txId ≠ st.chain.tx_id) :
    (st.chain.seq ≤ (finalizeBatch pending res st.chain now st).chain.seq ∧
      ((finalizeBatch pending res st.chain now st).chain.tx_id ≠ st.chain.tx_id
        ↔ (finalizeBatch pending res st.chain now st).chain.seq ≠ st.chain.seq)) ∧
    (st.chain.seq ≤ (finalizeBundleSuccess pending st).chain.seq ∧
      ((finalizeBundleSuccess pending st).chain.tx_id ≠ st.chain.tx_id
        ↔ (finalizeBundleSuccess pending st).chain.seq ≠ st.chain.seq)) ∧
    (st.chain.seq ≤ (finalizeTurboSuccess pending st).chain.seq ∧
      ((finalizeTurboSuccess pending st).chain.tx_id ≠ st.chain.tx_id
        ↔ (finalizeTurboSuccess pending st).chain.seq ≠ st.chain.seq)) ∧
    (finalizeBundleFailure pending errorMessage now st).chain = st.chain ∧
    (finalizeTurboFailure failedResults now st).chain = st.chain ∧
    (revertToSigningState pending now st).chain = st.chain := by
  refine ⟨?_, ?_, ?_, rfl, rfl, rfl⟩
  · cases hlast : (pending.takeWhile (uploadOk res)).getLast? with
    | none =>
      have hemp : pending.takeWhile (uploadOk res) = [] := by
        by_contra hne
        have hs := List.getLast?_isSome.mpr hne
        rw [hlast] at hs
        simp at hs
      rw [finalizeBatch_chain_empty res pending st.chain now st hemp]
      exact ⟨le_refl _, by simp⟩
    | some q =>
      have hqmem : q ∈ pending :=
        (List.takeWhile_prefix (uploadOk res)).subset (List.mem_of_mem_getLast? hlast)
      have hchain := finalizeBatch_chain_last res pending st.chain now st q hlast
      by_cases hg : (!q.txId.isEmpty && (some q.txId != st.chain.tx_id)) = true
      · rw [hchain, if_pos hg]
        have hqe : some q.txId ≠ st.chain.tx_id := by
          rw [Bool.and_eq_true, bne_iff_ne] at hg
          exact hg.2
        have hlt := hseqmem q hqmem
        refine ⟨by simp; omega, ?_, ?_⟩
        · intro _
          simp
          omega
        · intro _
          simpa using hqe
      · rw [hchain, if_neg hg]
        exact ⟨le_refl _, by simp⟩
  · cases hlast : pending.getLast? with
    | none =>
      simp only [finalizeBundleSuccess, hlast]
      exact ⟨le_refl _, by simp⟩
    | some lastp =>
      have hm : lastp ∈ pending := List.mem_of_mem_getLast? hlast
      have h1 := hseqmem lastp hm
      have h2 := hfresh lastp hm
      simp only [finalizeBundleSuccess, hlast]
      refine ⟨by simp [updateChainHead]; omega, ?_, ?_⟩
      · intro _
        simp [updateChainHead]
        omega
      · intro _
        simpa [updateChainHead] using h2
  · cases hlast : pending.getLast? with
    | none =>
      simp only [finalizeTurboSuccess, hlast]
      exact ⟨le_refl _, by simp⟩
    | some lastp =>
      have hm : lastp ∈ pending := List.mem_of_mem_getLast? hlast
      have h1 := hseqmem lastp hm
      have h2 := hfresh lastp hm
      simp only [finalizeTurboSuccess, hlast]
      refine ⟨by simp [updateChainHead]; omega, ?_, ?_⟩
      · intro _
        simp [updateChainHead]
        omega
      · intro _
        simpa [updateChainHead] using h2

/-- Witness for C5 at the bundle-of-three input: post seq 13 ≥ pre seq 10,
tx and seq change together on the success path, and the failure path
leaves the head untouched. -/
theorem claim_C5_witness :
    (10 ≤ (finalizeBundleSuccess bundlePs bundleSt).chain.seq) ∧
    ((finalizeBundleSuccess bundlePs bundleSt).chain.tx_id ≠ bundleSt.chain.tx_id
      ↔ (finalizeBundleSuccess bundlePs bundleSt).chain.seq ≠ bundleSt.chain.seq) ∧
    (10 ≤ (finalizeBatch bundlePs (fun _ => some ⟨true, none⟩) bundleSt.chain 9999
        bundleSt).chain.seq) ∧
    (finalizeBundleFailure bundlePs "upload rejected" 9999 bundleSt).chain
      = bundleSt.chain := by
  have h := claim_C5 (fun _ => some ⟨true, none⟩) bundlePs
    [(bundlePs[0]!, some "upload rejected")] "upload rejected" 9999 bundleSt
    (by decide) (by decide)
  exact ⟨h.2.1.1, h.2.1.2, h.1.1, h.2.2.2.1⟩

/-! ## C6 -/

/-- Counterexample to C6 as stated: in the legacy direct path
(`finalizeBatch`, queue/finalize.ts), a failed row IS reverted to
`pending` with the error stored, but its `retry_count` is NOT incremented:
on the `[ok, ok, fail, ok, ok]` scenario rows 3–5 keep `retry_count = 0`
where the claim requires 1. -/
theorem claim_C6_counterexample :
    (finalizeBatch directPs directRes demoHead 9999 directSt).queue.map
        (fun r => (r.id, r.status, r.retry_count))
      = [(3, .pending, 0), (4, .pending, 0), (5, .pending, 0)] ∧
    ¬ (∀ r ∈ (finalizeBatch directPs directRes demoHead 9999 directSt).queue,
        r.retry_count = 1) := by
  refine ⟨by decide, ?_⟩
  intro h
  exact absurd (h (finalizeBatch directPs directRes demoHead 9999
    directSt).queue[0]! (by decide)) (by decide)

/-- C6 (amended): in direct mode every queue row whose upload failed is
reverted to `pending` with the error message stored; the Turbo direct path
(`finalizeTurboFailure`) additionally increments `retry_count` by one,
while the legacy path (`finalizeBatch`) leaves `retry_count` unchanged. -/
theorem claim_C6 (failedResults : List (PendingDataItem × Option String))
    (res : String → Option UploadResult) (pending : List PendingDataItem)
    (head : ChainHead) (now : Nat) (st : WorkerState)
    (hnd : (failedResults.map (fun pe => pe.1.queueItem.id)).Nodup) :
    ((finalizeTurboFailure failedResults now st).queue.map (·.id)
      = st.queue.map (·.id)) ∧
    (∀ (i : Nat) (r r' : QueueItem), st.queue[i]? = some r →
      (finalizeTurboFailure failedResults now st).queue[i]? = some r' →
        (r.id ∈ failedResults.map (fun pe => pe.1.queueItem.id) →
          r'.status = .pending ∧ r'.retry_count = r.retry_count + 1 ∧
          r'.error_message.isSome) ∧
        (r.id ∉ failedResults.map (fun pe => pe.1.queueItem.id) → r' = r)) ∧
    (∀ r ∈ (finalizeBatch pending res head now st).queue,
      r.id ∈ (failureTail res pending).map (·.queueItem.id) →
        r.status = .pending ∧ r.error_message.isSome) ∧
    (∀ r ∈ (finalizeBatch pending res head now st).queue,
      ∃ r0 ∈ st.queue, r.id = r0.id ∧ r.retry_count = r0.retry_count) := by
  refine ⟨?_, ?_, finalizeBatch_failed_rows res pending head now st,
    finalizeBatch_rows_from res pending head now st⟩
  · simp only [finalizeTurboFailure]
    rw [revert_foldl_comm_turbo now failedResults st.queue, List.map_map]
    refine List.map_congr_left fun r _ => ?_
    simp only [Function.comp_apply]
    exact pendRowUpd_fold_id now (fun pe => pe.1.queueItem.id)
      (fun pe => pe.2.getD "Turbo upload failed") failedResults r
  · intro i r r' hr hr'
    simp only [finalizeTurboFailure] at hr'
    rw [revert_foldl_comm_turbo now failedResults st.queue, List.getElem?_map, hr] at hr'
    simp only [Option.map_some', Option.some.injEq] at hr'
    subst hr'
    constructor
    · intro hmem
      exact pendRowUpd_fold_once now (fun pe => pe.1.queueItem.id)
        (fun pe => pe.2.getD "Turbo upload failed") failedResults r hnd hmem
    · intro hnm
      exact pendRowUpd_fold_not_mem now (fun pe => pe.1.queueItem.id)
        (fun pe => pe.2.getD "Turbo upload failed") failedResults r hnm

/-- Witness for C6 (amended): a failed Turbo upload of row 3 reverts it to
`pending` with `retry_count` 0 → 1 and the error stored, leaving rows 1, 2
unchanged; the legacy path reverts row 3 to `pending` with the error but
`retry_count` still 0. -/
theorem claim_C6_witness :
    ((finalizeTurboFailure [(turboPs[2]!, some "upload rejected")] 9999
        directSt).queue.map (·.id) = directSt.queue.map (·.id)) ∧
    ((finalizeTurboFailure [(turboPs[2]!, some "upload rejected")] 9999
        directSt).queue[2]!.status = .pending ∧
      (finalizeTurboFailure [(turboPs[2]!, some "upload rejected")] 9999
        directSt).queue[2]!.retry_count = directSt.queue[2]!.retry_count + 1 ∧
      (finalizeTurboFailure [(turboPs[2]!, some "upload rejected")] 9999
        directSt).queue[2]!.error_message.isSome) ∧
    ((finalizeTurboFailure [(turboPs[2]!, some "upload rejected")] 9999
        directSt).queue[0]! = directSt.queue[0]!) ∧
    ((finalizeBatch directPs directRes demoHead 9999 directSt).queue[0]!.status
        = .pending ∧
      (finalizeBatch directPs directRes demoHead 9999
        directSt).queue[0]!.error_message.isSome) := by
  have h := claim_C6 [(turboPs[2]!, some "upload rejected")] directRes directPs
    demoHead 9999 directSt (by decide)
  have h2 := h.2.1 2 directSt.queue[2]!
    ((finalizeTurboFailure [(turboPs[2]!, some "upload rejected")] 9999
      directSt).queue[2]!) (by decide) (by decide)
  have h0 := h.2.1 0 directSt.queue[0]!
    ((finalizeTurboFailure [(turboPs[2]!, some "upload rejected")] 9999
      directSt).queue[0]!) (by decide) (by decide)
  have h3 := h.2.2.1 ((finalizeBatch directPs directRes demoHead 9999
    directSt).queue[0]!) (by decide) (by decide)
  exact ⟨h.1, h2.1 (by decide), h0.2 (by decide), h3⟩

/-! ## C7 -/

/-- C7: in bundle mode, when the accumulated bundle size is below
`BUNDLE_SIZE_THRESHOLD` AND the oldest batch row's age is below
`BUNDLE_TIME_THRESHOLD`, no upload happens, the signed rows revert to
`pending` (chain and index untouched) and the tick reports
`processed = 0`; when either threshold is met or exceeded, the upload
proceeds. -/
theorem claim_C7 (pending : List PendingDataItem)
    (bundleSize now itemsTotal failedNoManifest : Nat)
    (uploadOutcome : Option String) (st : WorkerState) :
    ((bundleSize < CONFIG.BUNDLE_SIZE_THRESHOLD ∧
      now - oldestCreatedAt pending < CONFIG.BUNDLE_TIME_THRESHOLD_MS) →
      (processWithBundlingStep pending bundleSize now itemsTotal failedNoManifest
          uploadOutcome st).2.2 = false ∧
      (processWithBundlingStep pending bundleSize now itemsTotal failedNoManifest
          uploadOutcome st).2.1.processed = 0 ∧
      (processWithBundlingStep pending bundleSize now itemsTotal failedNoManifest
          uploadOutcome st).1.chain = st.chain ∧
      (processWithBundlingStep pending bundleSize now itemsTotal failedNoManifest
          uploadOutcome st).1.index = st.index ∧
      (∀ r ∈ (processWithBundlingStep pending bundleSize now itemsTotal
          failedNoManifest uploadOutcome st).1.queue,
        r.id ∈ pending.map (·.queueItem.id) → r.status = .pending)) ∧
    ((CONFIG.BUNDLE_SIZE_THRESHOLD ≤ bundleSize ∨
      CONFIG.BUNDLE_TIME_THRESHOLD_MS ≤ now - oldestCreatedAt pending) →
      (processWithBundlingStep pending bundleSize now itemsTotal failedNoManifest
          uploadOutcome st).2.2 = true) := by
  constructor
  · intro ⟨hs, ht⟩
    have hsb : decide (bundleSize ≥ CONFIG.BUNDLE_SIZE_THRESHOLD) = false := by
      simp
      omega
    have htb : decide (now - oldestCreatedAt pending
        ≥ CONFIG.BUNDLE_TIME_THRESHOLD_MS) = false := by
      simp
      omega
    simp only [processWithBundlingStep, hsb, htb, Bool.not_false, Bool.and_self,
      if_true]
    refine ⟨by trivial, by trivial, by trivial, by trivial, ?_⟩
    intro r hr hmem
    simp only [revertToSigningState] at hr
    obtain ⟨r0, hr0, rfl⟩ := List.mem_map.mp hr
    by_cases hc : (pending.map (·.queueItem.id)).contains r0.id = true
    · rw [if_pos hc]
    · rw [if_neg hc] at hmem ⊢
      exact absurd (List.elem_iff.mpr hmem) hc
  · intro h
    have hg : (!decide (bundleSize ≥ CONFIG.BUNDLE_SIZE_THRESHOLD) &&
        !decide (now - oldestCreatedAt pending
          ≥ CONFIG.BUNDLE_TIME_THRESHOLD_MS)) = false := by
      rcases h with h | h
      · simp [decide_eq_true h]
      · simp [decide_eq_true h]
    simp only [processWithBundlingStep, hg, Bool.false_eq_true, if_false]
    cases uploadOutcome <;> rfl

/-- Witness for C7: a 1 KiB bundle whose oldest row is 7 s old is deferred
with `processed = 0` and the rows back to `pending`; a 400 KiB bundle
proceeds to upload. -/
theorem claim_C7_witness :
    ((processWithBundlingStep bundlePs 1024 600000 3 0 none bundleSt).2.2 = false ∧
      (processWithBundlingStep bundlePs 1024 600000 3 0 none bundleSt).2.1.processed
        = 0 ∧
      (processWithBundlingStep bundlePs 1024 600000 3 0 none
          bundleSt).1.chain = bundleSt.chain) ∧
    ((processWithBundlingStep bundlePs 1024 600000 3 0 none
          bundleSt).1.queue[0]!.status = .pending) ∧
    ((processWithBundlingStep bundlePs (400 * 1024) 600000 3 0 none
        bundleSt).2.2 = true) := by
  have h1 := (claim_C7 bundlePs 1024 600000 3 0 none bundleSt).1
    (by decide)
  have h2 := (claim_C7 bundlePs (400 * 1024) 600000 3 0 none bundleSt).2
    (Or.inl (by decide))
  refine ⟨⟨h1.1, h1.2.1, h1.2.2.1⟩, ?_, h2⟩
  exact h1.2.2.2.2 _ (by decide) (by decide)

/-! ## C9 -/

/-- Counterexample to C9 as stated: a record signed through the bundle path
(`signDataItemBatch` / `buildTags` of chain/signDataItems.ts) with a
non-null `prev_cid` carries NO `Prev-CID` tag. -/
theorem claim_C9_counterexample :
    demoPs[0]!.payload.attestation.prev_cid = some "CID0" ∧
    "Prev-CID" ∉ demoPs[0]!.tags.map (·.name) := by decide

/-- C9 (amended): the transport-envelope tags comprise Content-Type,
App-Name, Type, PI, Ver, CID, Op, Vis and Seq, in that order; the Turbo
path additionally appends Prev-TX when `prev_tx` is truthy and Prev-CID
when `prev_cid` is truthy, while the bundle path appends only Prev-TX
(when truthy) and never emits a Prev-CID tag. -/
theorem claim_C9 (payload : AttestationPayload) (item : QueueItem)
    (ver seq : Nat) (prevTx : Option String) :
    ((Turbo.buildTags payload).map (·.name)
      = ["Content-Type", "App-Name", "Type", "PI", "Ver", "CID", "Op", "Vis", "Seq"]
        ++ (if truthy payload.attestation.prev_tx then ["Prev-TX"] else [])
        ++ (if truthy payload.attestation.prev_cid then ["Prev-CID"] else [])) ∧
    ((SignDataItems.buildTags item ver seq prevTx).map (·.name)
      = ["Content-Type", "App-Name", "Type", "PI", "Ver", "CID", "Op", "Vis", "Seq"]
        ++ (if truthy prevTx then ["Prev-TX"] else [])) ∧
    ("Prev-CID" ∉ (SignDataItems.buildTags item ver seq prevTx).map (·.name)) := by
  refine ⟨?_, ?_, ?_⟩
  · unfold Turbo.buildTags
    cases htx : payload.attestation.prev_tx with
    | none =>
      cases hcid : payload.attestation.prev_cid with
      | none => simp [truthy, htx, hcid]
      | some c => by_cases hc : c.isEmpty <;> simp [truthy, htx, hcid, hc]
    | some t =>
      cases hcid : payload.attestation.prev_cid with
      | none => by_cases ht : t.isEmpty <;> simp [truthy, htx, hcid, ht]
      | some c =>
        by_cases ht : t.isEmpty <;> by_cases hc : c.isEmpty <;>
          simp [truthy, htx, hcid, ht, hc]
  · unfold SignDataItems.buildTags
    cases htx : prevTx with
    | none => simp [truthy]
    | some t => by_cases ht : t.isEmpty <;> simp [truthy, ht]
  · unfold SignDataItems.buildTags
    cases htx : prevTx with
    | none => simp
    | some t => by_cases ht : t.isEmpty <;> simp [ht]

/-- Witness for C9 (amended) at a concrete record: the Turbo-signed first
record of the scenario carries both Prev-TX and Prev-CID; the bundle-signed
one carries only Prev-TX. -/
theorem claim_C9_witness :
    ((Turbo.buildTags turboPs[0]!.payload).map (·.name)
      = ["Content-Type", "App-Name", "Type", "PI", "Ver", "CID", "Op", "Vis", "Seq",
         "Prev-TX", "Prev-CID"]) ∧
    ((SignDataItems.buildTags (demoRow 1 "E1" "C1") 1 101 (some "TX0")).map (·.name)
      = ["Content-Type", "App-Name", "Type", "PI", "Ver", "CID", "Op", "Vis", "Seq",
         "Prev-TX"]) ∧
    ("Prev-CID" ∉ (SignDataItems.buildTags (demoRow 1 "E1" "C1") 1 101
        (some "TX0")).map (·.name)) := by
  have h1 := claim_C9 turboPs[0]!.payload (demoRow 1 "E1" "C1") 1 101 (some "TX0")
  refine ⟨?_, ?_, h1.2.2⟩
  · rw [h1.1]
    decide
  · rw [h1.2.1]
    decide

/-! ## C10 -/

/-- The invariant satisfied by every row inserted by the seeding-failure
requeue. -/
def freshRequeueRow (now : Nat) (r : QueueItem) : Prop :=
  r.op = "U" ∧ r.vis = "pub" ∧ r.status = .pending ∧ r.retry_count = 0 ∧
  r.ts = now ∧ r.created_at = now ∧ r.updated_at = now ∧ r.error_message = none

instance (now : Nat) (r : QueueItem) : Decidable (freshRequeueRow now r) := by
  unfold freshRequeueRow
  infer_instance

theorem requeueFold_extends (now : Nat) :
    ∀ (its : List TrackedItem) (q : List QueueItem) (n : Nat),
      ∃ newRows : List QueueItem,
        (its.foldl (fun acc it =>
          let qi := requeueInsert now it acc.1
          (qi.1, acc.2 + if qi.2 then 1 else 0)) (q, n)).1 = q ++ newRows ∧
        ∀ r ∈ newRows, freshRequeueRow now r := by
  intro its
  induction its with
  | nil => intro q n; exact ⟨[], by simp, by simp⟩
  | cons it its ih =>
    intro q n
    simp only [List.foldl_cons]
    by_cases hex : q.any (fun r => r.entity_id == it.entityId && r.cid == it.cid) = true
    · have hins : requeueInsert now it q = (q, false) := by
        simp [requeueInsert, hex]
      rw [hins]
      exact ih q _
    · have hins : requeueInsert now it q = (q ++ [requeueRowNew now it q], true) := by
        simp [requeueInsert, hex]
      rw [hins]
      obtain ⟨newRows, hq, hP⟩ := ih (q ++ [requeueRowNew now it q]) (n + 1)
      refine ⟨requeueRowNew now it q :: newRows, ?_, ?_⟩
      · conv_rhs => rw [List.append_cons]
        exact hq
      · intro r hr
        cases hr with
        | head => exact ⟨rfl, rfl, rfl, rfl, rfl, rfl, rfl, rfl⟩
        | tail _ hr => exact hP r hr

/-- C10: every queue row inserted by the seeding-failure requeue carries
the fixed values `op = 'U'`, `vis = 'pub'`, `status = 'pending'`,
`retry_count = 0` and a fresh timestamp, regardless of the entity's
original queue row; the pre-existing rows are untouched (the queue is only
extended). -/
theorem claim_C10 (bundle : PendingBundle) (now : Nat) (queue : List QueueItem) :
    ∃ newRows : List QueueItem,
      (requeueEntities bundle now queue).1 = queue ++ newRows ∧
      ∀ r ∈ newRows, freshRequeueRow now r := by
  unfold requeueEntities
  exact requeueFold_extends now (itemsToRequeue bundle) queue 0

/-- A tracked bundle whose original rows had `op='C'`, `vis='priv'` and a
nonzero retry count would still be requeued as fresh `U`/`pub` rows. -/
def demoBundle : PendingBundle :=
  { bundleTxId := "BTX1"
    entityCids := [("E1", "C1"), ("E2", "C2")]
    items := some [⟨"E1", "C1"⟩, ⟨"E2", "C2"⟩]
    itemCount := 2
    uploadedAt := 0
    checkCount := 0
    verified := false
    verifiedAt := none
    failedFlag := false
    failedAt := none }

/-- Witness for C10: requeuing `demoBundle` into an empty queue inserts two
fresh rows with `op='U'`, `vis='pub'`, `status='pending'`,
`retry_count=0`, timestamps `now`. -/
theorem claim_C10_witness :
    (requeueEntities demoBundle 7777 []).1.map
        (fun r => (r.entity_id, r.cid, r.op, r.vis, r.status, r.retry_count, r.ts))
      = [("E1", "C1", "U", "pub", .pending, 0, 7777),
         ("E2", "C2", "U", "pub", .pending, 0, 7777)] ∧
    (requeueEntities demoBundle 7777 []).1.all
      (fun r => decide (freshRequeueRow 7777 r)) := by
  obtain ⟨newRows, heq, hP⟩ := claim_C10 demoBundle 7777 []
  refine ⟨by rfl, ?_⟩
  rw [heq]
  simp only [List.nil_append, List.all_eq_true]
  intro r hr
  exact decide_eq_true (hP r hr)

/-! ## C8 -/

/-- Number of queue rows carrying a given `(entity_id, cid)` pair. -/
def pairCount (q : List QueueItem) (e c : String) : Nat :=
  (q.filter (fun r => r.entity_id == e && r.cid == c)).length

theorem requeueInsert_pairCount (now : Nat) (it : TrackedItem) (q : List QueueItem)
    (e c : String) (h : pairCount q e c ≤ 1) :
    pairCount (requeueInsert now it q).1 e c ≤ 1 := by
  unfold requeueInsert
  by_cases hex : q.any (fun r => r.entity_id == it.entityId && r.cid == it.cid) = true
  · rw [if_pos hex]
    exact h
  · rw [if_neg hex]
    by_cases hec : it.entityId = e ∧ it.cid = c
    · have h0 : pairCount q e c = 0 := by
        rw [pairCount, List.length_eq_zero, List.filter_eq_nil]
        intro r hr
        simp only [List.any_eq_true, not_exists, not_and] at hex
        have := hex r hr
        simpa [hec.1, hec.2] using this
      have hb : (it.entityId == e && it.cid == c) = true := by
        simp [hec.1, hec.2]
      have hnew : pairCount [requeueRowNew now it q] e c = 1 := by
        simp [pairCount, requeueRowNew, hb]
      rw [pairCount, List.filter_append, List.length_append]
      rw [pairCount] at h0
      rw [pairCount] at hnew
      omega
    · have hb : (it.entityId == e && it.cid == c) = false := by
        cases hbe : (it.entityId == e && it.cid == c) with
        | false => rfl
        | true => exact absurd (by simpa using hbe) hec
      have hnew : pairCount [requeueRowNew now it q] e c = 0 := by
        simp [pairCount, requeueRowNew, hb]
      rw [pairCount, List.filter_append, List.length_append]
      rw [pairCount] at h hnew
      omega

theorem requeueFold_pairCount (now : Nat) :
    ∀ (its : List TrackedItem) (q : List QueueItem) (n : Nat) (e c : String),
      pairCount q e c ≤ 1 →
      pairCount ((its.foldl (fun acc it =>
        let qi := requeueInsert now it acc.1
        (qi.1, acc.2 + if qi.2 then 1 else 0)) (q, n)).1) e c ≤ 1 := by
  intro its
  induction its with
  | nil => intro q n e c h; exact h
  | cons it its ih =>
    intro q n e c h
    simp only [List.foldl_cons]
    exact ih (requeueInsert now it q).1
      (n + if (requeueInsert now it q).2 then 1 else 0) e c
      (requeueInsert_pairCount now it q e c h)

theorem requeueFold_covers (now : Nat) :
    ∀ (its : List TrackedItem) (q : List QueueItem) (n : Nat),
      ∀ it ∈ its, ∃ r ∈ (its.foldl (fun acc it =>
        let qi := requeueInsert now it acc.1
        (qi.1, acc.2 + if qi.2 then 1 else 0)) (q, n)).1,
        r.entity_id = it.entityId ∧ r.cid = it.cid := by
  intro its
  induction its with
  | nil => intro q n it h; simp at h
  | cons it0 its ih =>
    intro q n it hmem
    simp only [List.foldl_cons]
    cases hmem with
    | head =>
      have hq1 : ∃ r ∈ (requeueInsert now it0 q).1,
          r.entity_id = it0.entityId ∧ r.cid = it0.cid := by
        unfold requeueInsert
        by_cases hex : q.any (fun r =>
            r.entity_id == it0.entityId && r.cid == it0.cid) = true
        · rw [if_pos hex]
          obtain ⟨r, hr, hpred⟩ := List.any_eq_true.mp hex
          refine ⟨r, hr, ?_⟩
          simpa using hpred
        · rw [if_neg hex]
          exact ⟨requeueRowNew now it0 q, by simp, rfl, rfl⟩
      obtain ⟨r, hr, hrec⟩ := hq1
      obtain ⟨newRows, heq, _⟩ := requeueFold_extends now its
        (requeueInsert now it0 q).1
        (n + if (requeueInsert now it0 q).2 then 1 else 0)
      refine ⟨r, ?_, hrec⟩
      have hm : r ∈ (requeueInsert now it0 q).1 ++ newRows :=
        List.mem_append_left _ hr
      rw [← heq] at hm
      exact hm
    | tail _ hmem => exact ih _ _ it hmem

/-- C8 (amended): for a tracked bundle past the seeding grace period that
is not yet verified or failed: at least one confirmation marks it
verified; still unconfirmed with age STRICTLY past `SEED_TIMEOUT` marks it
failed, re-queues its `{entity_id, cid}` pairs (each inserted only when no
row with that pair exists, so pairs stay unique) and emits a
seeding-failure alert; otherwise — including age exactly `SEED_TIMEOUT` —
its `check_count` is incremented and it stays pending. -/
theorem claim_C8 (seeded : String → Bool) (now : Nat) (vs : VerifyState)
    (bundle : PendingBundle)
    (h1 : bundle.verified = false) (h2 : bundle.failedFlag = false)
    (hgrace : CONFIG.BUNDLE_SEED_GRACE_PERIOD_MS ≤ now - bundle.uploadedAt) :
    (seeded bundle.bundleTxId = true →
      verifyBundleStep seeded now vs bundle
        = { vs with
            bundles := vs.bundles
              ++ [{ bundle with verified := true, verifiedAt := some now }],
            result := { vs.result with
              checked := vs.result.checked + 1,
              verified := vs.result.verified + 1 } }) ∧
    (seeded bundle.bundleTxId = false →
      CONFIG.BUNDLE_SEED_TIMEOUT_MS < now - bundle.uploadedAt →
      verifyBundleStep seeded now vs bundle
        = { bundles := vs.bundles
              ++ [{ bundle with failedFlag := true, failedAt := some now }],
            queue := (requeueEntities bundle now vs.queue).1,
            alerts := vs.alerts ++ [bundle.bundleTxId],
            result := { vs.result with
              checked := vs.result.checked + 1,
              failedCount := vs.result.failedCount + 1,
              requeuedEntities := vs.result.requeuedEntities
                + (requeueEntities bundle now vs.queue).2 } }) ∧
    (seeded bundle.bundleTxId = false →
      now - bundle.uploadedAt ≤ CONFIG.BUNDLE_SEED_TIMEOUT_MS →
      verifyBundleStep seeded now vs bundle
        = { vs with
            bundles := vs.bundles
              ++ [{ bundle with checkCount := bundle.checkCount + 1 }],
            result := { vs.result with
              checked := vs.result.checked + 1,
              pending := vs.result.pending + 1 } }) ∧
    (∀ it ∈ itemsToRequeue bundle,
      ∃ r ∈ (requeueEntities bundle now vs.queue).1,
        r.entity_id = it.entityId ∧ r.cid = it.cid) ∧
    (∀ e c : String, pairCount vs.queue e c ≤ 1 →
      pairCount (requeueEntities bundle now vs.queue).1 e c ≤ 1) := by
  refine ⟨?_, ?_, ?_,
    fun it hit => requeueFold_covers now (itemsToRequeue bundle) vs.queue 0 it hit,
    fun e c h => requeueFold_pairCount now (itemsToRequeue bundle) vs.queue 0 e c h⟩
  · intro hs
    unfold verifyBundleStep
    rw [h1, h2]
    rw [if_neg (by simp), if_neg (by omega), if_pos hs]
  · intro hs ht
    unfold verifyBundleStep
    rw [h1, h2]
    rw [if_neg (by simp), if_neg (by omega), if_neg (by simp [hs]),
      if_pos ht]
  · intro hs ht
    unfold verifyBundleStep
    rw [h1, h2]
    rw [if_neg (by simp), if_neg (by omega), if_neg (by simp [hs]),
      if_neg (by omega)]

/-- Counterexample to C8 as stated: a bundle whose age has exactly REACHED
`SEED_TIMEOUT` (uploaded at 0, checked at `now = BUNDLE_SEED_TIMEOUT_MS`)
and is still unconfirmed is NOT marked failed — the code requires age
STRICTLY greater than the timeout — it stays pending with `check_count`
incremented; nothing is re-queued and no alert fires. -/
theorem claim_C8_counterexample :
    CONFIG.BUNDLE_SEED_GRACE_PERIOD_MS
      ≤ CONFIG.BUNDLE_SEED_TIMEOUT_MS - demoBundle.uploadedAt ∧
    CONFIG.BUNDLE_SEED_TIMEOUT_MS
      ≤ CONFIG.BUNDLE_SEED_TIMEOUT_MS - demoBundle.uploadedAt ∧
    (verifyPendingBundles (fun _ => false) CONFIG.BUNDLE_SEED_TIMEOUT_MS
        [demoBundle] []).bundles.map
        (fun b => (b.failedFlag, b.verified, b.checkCount))
      = [(false, false, 1)] ∧
    (verifyPendingBundles (fun _ => false) CONFIG.BUNDLE_SEED_TIMEOUT_MS
        [demoBundle] []).queue = [] ∧
    (verifyPendingBundles (fun _ => false) CONFIG.BUNDLE_SEED_TIMEOUT_MS
        [demoBundle] []).alerts = [] := by decide

/-- An empty verification pass state. -/
def demoVs : VerifyState :=
  { bundles := [], queue := [], alerts := [], result := ⟨0, 0, 0, 0, 0⟩ }

/-- Witness for C8 (amended): at age 2000000 ms (past the 1800000 ms
timeout) the unconfirmed bundle is marked failed, both pairs are
re-queued, the alert fires; at age 1500000 ms it stays pending with
`check_count` incremented; re-queued pairs stay unique. -/
theorem claim_C8_witness :
    (verifyBundleStep (fun _ => false) 2000000 demoVs demoBundle).bundles.map
        (fun b => (b.failedFlag, b.failedAt))
      = [(true, some 2000000)] ∧
    (verifyBundleStep (fun _ => false) 2000000 demoVs demoBundle).alerts
      = ["BTX1"] ∧
    (verifyBundleStep (fun _ => false) 2000000 demoVs demoBundle).queue.map
        (fun r => (r.entity_id, r.cid, r.status))
      = [("E1", "C1", .pending), ("E2", "C2", .pending)] ∧
    (verifyBundleStep (fun _ => false) 1500000 demoVs demoBundle).bundles.map
        (fun b => (b.failedFlag, b.checkCount))
      = [(false, 1)] ∧
    pairCount (requeueEntities demoBundle 2000000 demoVs.queue).1 "E1" "C1" ≤ 1 := by
  have hf := claim_C8 (fun _ => false) 2000000 demoVs demoBundle rfl rfl (by decide)
  have hp := claim_C8 (fun _ => false) 1500000 demoVs demoBundle rfl rfl (by decide)
  refine ⟨?_, ?_, ?_, ?_, ?_⟩
  · rw [hf.2.1 rfl (by decide)]
    decide
  · rw [hf.2.1 rfl (by decide)]
    decide
  · rw [hf.2.1 rfl (by decide)]
    decide
  · rw [hp.2.2.1 rfl (by decide)]
    decide
  · exact hf.2.2.2.2 "E1" "C1" (by decide)

end Arke
